import Mathlib

/-!
# FlexiTimer: a shallow embedding of `flexitimer.c`

The timer table of `src/src/flexitimer.c` is a static array of
`FLEXITIMER_MAX_TIMERS` records.  It is modelled as a total function from slot
indices to records; every API function takes the table and returns its error
code together with the table it leaves behind.

* `timer_time_t` is `uint32_t`: times are natural numbers, arguments are
  expected below `2 ^ 32`, and the one place where the source can wrap
  (`remaining += delay`) reduces modulo `2 ^ 32` explicitly.
* `timer_id_t` is `uint8_t`: ids are natural numbers, checked against
  `FLEXITIMER_MAX_TIMERS` exactly as the source does.
* `timer_callback_t` is a function pointer: a slot stores `none` (NULL) or the
  address of a function.  What the function at an address does is supplied by
  the application as a `Callbacks` value, which may read and rewrite both the
  timer table and the application's own state.
-/

set_option maxRecDepth 8000

namespace FlexiTimer

/-- Number of timer slots: `#define FLEXITIMER_MAX_TIMERS (10)`. -/
abbrev FLEXITIMER_MAX_TIMERS : Nat := 10

/-- Number of values of `timer_time_t` (`uint32_t`). -/
abbrev TIMER_TIME_MOD : Nat := 2 ^ 32

/-- Timer type enumeration. -/
inductive timer_type_t where
  | SINGLESHOT
  | PERIODIC
  deriving DecidableEq, Repr

/-- Timer state enumeration. -/
inductive timer_state_t where
  | PASSIVE
  | ACTIVE
  | PAUSED
  deriving DecidableEq, Repr

/-- Error enumeration for scheduler functions. -/
inductive flexitimer_error_t where
  | OK
  | INVALID_ID
  | INVALID_STATE
  | INVALID_ARG
  | ZERO_TIMEOUT
  deriving DecidableEq, Repr

/-- Timer structure: the record `timer_t` of the source. -/
structure timer_t where
  timeout : Nat
  remaining : Nat
  type : timer_type_t
  state : timer_state_t
  callback : Option Nat
  deriving DecidableEq, Repr

/-- The static array `timers[FLEXITIMER_MAX_TIMERS]`. -/
abbrev Table : Type := Fin FLEXITIMER_MAX_TIMERS → timer_t

/-- The table as the C runtime zero-initialises it before any call. -/
def zero_table : Table :=
  fun _ => { timeout := 0, remaining := 0, type := .SINGLESHOT, state := .PASSIVE,
             callback := none }

/-- Cancels the specified timer. -/
def flexitimer_cancel (timers : Table) (id : Nat) : flexitimer_error_t × Table :=
  if h : id ≥ FLEXITIMER_MAX_TIMERS then
    (.INVALID_ID, timers)
  else
    (.OK, Function.update timers ⟨id, by omega⟩
      { timers ⟨id, by omega⟩ with state := .PASSIVE, remaining := 0, callback := none })

/-- Initializes the scheduler: cancels the slots `0 .. FLEXITIMER_MAX_TIMERS - 1` in order. -/
def flexitimer_init (timers : Table) : Table :=
  (List.range FLEXITIMER_MAX_TIMERS).foldl (fun t i => (flexitimer_cancel t i).2) timers

/-- Starts a timer with the specified parameters. -/
def flexitimer_start (timers : Table) (id : Nat) (type : timer_type_t) (timeout : Nat)
    (callback : Option Nat) : flexitimer_error_t × Table :=
  if h : id ≥ FLEXITIMER_MAX_TIMERS then
    (.INVALID_ID, timers)
  else if type = .PERIODIC ∧ timeout = 0 then
    (.ZERO_TIMEOUT, timers)
  else
    (.OK, Function.update timers ⟨id, by omega⟩
      { timeout := timeout, remaining := timeout, type := type, state := .ACTIVE,
        callback := callback })

/-- Delays the specified timer; the addition is the `uint32_t` one. -/
def flexitimer_delay (timers : Table) (id : Nat) (delay : Nat) : flexitimer_error_t × Table :=
  if h : id ≥ FLEXITIMER_MAX_TIMERS then
    (.INVALID_ID, timers)
  else if (timers ⟨id, by omega⟩).state ≠ .PASSIVE then
    (.OK, Function.update timers ⟨id, by omega⟩
      { timers ⟨id, by omega⟩ with
        remaining := ((timers ⟨id, by omega⟩).remaining + delay) % TIMER_TIME_MOD })
  else
    (.INVALID_STATE, timers)

/-- Pauses the specified timer. -/
def flexitimer_pause (timers : Table) (id : Nat) : flexitimer_error_t × Table :=
  if h : id ≥ FLEXITIMER_MAX_TIMERS then
    (.INVALID_ID, timers)
  else if (timers ⟨id, by omega⟩).state = .ACTIVE then
    (.OK, Function.update timers ⟨id, by omega⟩
      { timers ⟨id, by omega⟩ with state := .PAUSED })
  else
    (.INVALID_STATE, timers)

/-- Resumes the specified timer. -/
def flexitimer_resume (timers : Table) (id : Nat) : flexitimer_error_t × Table :=
  if h : id ≥ FLEXITIMER_MAX_TIMERS then
    (.INVALID_ID, timers)
  else if (timers ⟨id, by omega⟩).state = .PAUSED then
    (.OK, Function.update timers ⟨id, by omega⟩
      { timers ⟨id, by omega⟩ with state := .ACTIVE })
  else
    (.INVALID_STATE, timers)

/-- Restarts the specified timer. -/
def flexitimer_restart (timers : Table) (id : Nat) : flexitimer_error_t × Table :=
  if h : id ≥ FLEXITIMER_MAX_TIMERS then
    (.INVALID_ID, timers)
  else if (timers ⟨id, by omega⟩).state ≠ .PASSIVE then
    (.OK, Function.update timers ⟨id, by omega⟩
      { timers ⟨id, by omega⟩ with
        remaining := (timers ⟨id, by omega⟩).timeout, state := .ACTIVE })
  else
    (.INVALID_STATE, timers)

/-- Gets the state of the specified timer.  The argument `state` is the output
destination: `none` for a NULL pointer, otherwise the value it currently holds; the
second component of the result is the destination after the call. -/
def flexitimer_get_state (timers : Table) (id : Nat) (state : Option timer_state_t) :
    flexitimer_error_t × Option timer_state_t :=
  if h : id ≥ FLEXITIMER_MAX_TIMERS then
    (.INVALID_ID, state)
  else if state = none then
    (.INVALID_ARG, state)
  else
    (.OK, some (timers ⟨id, by omega⟩).state)

/-- Gets the type of the specified timer (destination modelled as in `flexitimer_get_state`). -/
def flexitimer_get_type (timers : Table) (id : Nat) (type : Option timer_type_t) :
    flexitimer_error_t × Option timer_type_t :=
  if h : id ≥ FLEXITIMER_MAX_TIMERS then
    (.INVALID_ID, type)
  else if type = none then
    (.INVALID_ARG, type)
  else
    (.OK, some (timers ⟨id, by omega⟩).type)

/-- Gets the original timeout of the specified timer. -/
def flexitimer_get_time (timers : Table) (id : Nat) (time : Option Nat) :
    flexitimer_error_t × Option Nat :=
  if h : id ≥ FLEXITIMER_MAX_TIMERS then
    (.INVALID_ID, time)
  else if time = none then
    (.INVALID_ARG, time)
  else
    (.OK, some (timers ⟨id, by omega⟩).timeout)

/-- Gets the remaining time of the specified timer. -/
def flexitimer_get_elapsed (timers : Table) (id : Nat) (time : Option Nat) :
    flexitimer_error_t × Option Nat :=
  if h : id ≥ FLEXITIMER_MAX_TIMERS then
    (.INVALID_ID, time)
  else if time = none then
    (.INVALID_ARG, time)
  else
    (.OK, some (timers ⟨id, by omega⟩).remaining)

/-- Everything a handler pass can read or change: the timer table, the state owned by
the application (whatever the callback bodies keep in their own variables), and a log
of the callback invocations made so far, as pairs (function address, id argument),
oldest first.  The log is an observation device; no code reads it. -/
structure World (σ : Type) where
  timers : Table
  user : σ
  calls : List (Nat × Nat)

/-- The code behind the function pointers: `cbs f i timers u` is what calling the
function at address `f` with argument `i` makes of the timer table and of the
application state. -/
abbrev Callbacks (σ : Type) : Type := Nat → Nat → Table → σ → Table × σ

/-- Body of the loop of `flexitimer_handler` for the slot `i`. -/
def handler_slot {σ : Type} (cbs : Callbacks σ) (w : World σ)
    (i : Fin FLEXITIMER_MAX_TIMERS) : World σ :=
  if (w.timers i).state = .ACTIVE then
    let t1 : Table :=
      if (w.timers i).remaining > 0 then
        Function.update w.timers i { w.timers i with remaining := (w.timers i).remaining - 1 }
      else w.timers
    if (t1 i).remaining = 0 then
      let t2 : Table :=
        if (t1 i).type = .PERIODIC then
          Function.update t1 i { t1 i with remaining := (t1 i).timeout }
        else
          Function.update t1 i { t1 i with state := .PASSIVE }
      match (t2 i).callback with
      | some f =>
        { timers := (cbs f i.val t2 w.user).1, user := (cbs f i.val t2 w.user).2,
          calls := w.calls ++ [(f, i.val)] }
      | none => { w with timers := t2 }
    else { w with timers := t1 }
  else w

/-- Handler function to be called in a loop: one pass over the slots in ascending order. -/
def flexitimer_handler {σ : Type} (cbs : Callbacks σ) (w : World σ) : World σ :=
  (List.finRange FLEXITIMER_MAX_TIMERS).foldl (handler_slot cbs) w

/-- The world after `k` consecutive handler passes. -/
def handler_passes {σ : Type} (cbs : Callbacks σ) : Nat → World σ → World σ
  | 0, w => w
  | k + 1, w => flexitimer_handler cbs (handler_passes cbs k w)

/-- The invocations in a log that were made with id argument `id`. -/
def calls_of (id : Nat) (calls : List (Nat × Nat)) : List (Nat × Nat) :=
  calls.filter (fun p => p.2 = id)

/-- The callback bodies do not touch the timer table. -/
def Inert {σ : Type} (cbs : Callbacks σ) : Prop :=
  ∀ f i t u, (cbs f i t u).1 = t

/-- Callback bodies that do nothing at all. -/
def idle_callbacks : Callbacks Unit := fun _ _ t u => (t, u)

/-- A world with the given table, no application state and an empty log. -/
def fresh_world (timers : Table) : World Unit := ⟨timers, (), []⟩

/-- The scenario of the test `RestartPassiveSingleShotTimer` up to the natural expiry:
`init`, `start(0, SINGLESHOT, 1, cb)` with `cb` at address 7, one handler pass. -/
def expired_oneshot : World Unit :=
  flexitimer_handler idle_callbacks
    (fresh_world (flexitimer_start (flexitimer_init zero_table) 0 .SINGLESHOT 1 (some 7)).2)

/-- The world right after `start(id, type, timeout, cb)` on the table `timers`, with
application state `u` and an empty log. -/
def after_start {σ : Type} (timers : Table) (u : σ) (id : Nat) (type : timer_type_t)
    (timeout cb : Nat) : World σ :=
  ⟨(flexitimer_start timers id type timeout (some cb)).2, u, []⟩

/-- The callback bodies never change the slot `j` of the timer table. -/
def LeavesSlot {σ : Type} (cbs : Callbacks σ) (j : Fin FLEXITIMER_MAX_TIMERS) : Prop :=
  ∀ f i t u, (cbs f i t u).1 j = t j

/-- Every callback body except the one at address `f` leaves the timer table alone. -/
def InertExcept {σ : Type} (cbs : Callbacks σ) (f : Nat) : Prop :=
  ∀ c, c ≠ f → ∀ a t u, (cbs c a t u).1 = t

/-- Callback bodies for a chained-timer application: the function at address `f` calls
`flexitimer_start(j, type, timeout, g)`, as `timer_callback_1` of `basic_example.c` or
`green_light` of `traffic_light.c` do; every other function leaves the table alone. -/
def rearm_callbacks (f j : Nat) (type : timer_type_t) (timeout g : Nat) : Callbacks Unit :=
  fun c _ t u => if c = f then ((flexitimer_start t j type timeout (some g)).2, u) else (t, u)

/-- The callback bodies never clear a callback reference: a slot that has a callback
registered when a body starts still has one when it returns.  Bodies that act on the table
through `delay`, `pause`, `resume`, `restart` and `start` with a non-NULL callback are so. -/
def KeepsCallbacks {σ : Type} (cbs : Callbacks σ) : Prop :=
  ∀ c a t u (x : Fin FLEXITIMER_MAX_TIMERS),
    (t x).callback ≠ none → ((cbs c a t u).1 x).callback ≠ none

/-- One call of an API function that can write the timer table, with its arguments. -/
inductive api_call where
  | init
  | start (id : Nat) (type : timer_type_t) (timeout : Nat) (callback : Option Nat)
  | delay (id : Nat) (extra : Nat)
  | pause (id : Nat)
  | resume (id : Nat)
  | restart (id : Nat)
  | cancel (id : Nat)
  deriving DecidableEq, Repr

/-- The table an API call leaves behind. -/
def api_call.run (timers : Table) : api_call → Table
  | .init => flexitimer_init timers
  | .start id type timeout callback => (flexitimer_start timers id type timeout callback).2
  | .delay id extra => (flexitimer_delay timers id extra).2
  | .pause id => (flexitimer_pause timers id).2
  | .resume id => (flexitimer_resume timers id).2
  | .restart id => (flexitimer_restart timers id).2
  | .cancel id => (flexitimer_cancel timers id).2

/-- The table a sequence of API calls, made one after the other, leaves behind. -/
def run_calls (timers : Table) (l : List api_call) : Table :=
  l.foldl api_call.run timers

/-- The call is a call of `flexitimer_start`. -/
def api_call.is_start : api_call → Bool
  | .start _ _ _ _ => true
  | _ => false

/-- The callback bodies act on the timer table only through the API: what a body makes of
the table is the result of some sequence of API calls (which calls it makes may depend on
the table, for instance through the queries, and on the application state). -/
def ApiBodies {σ : Type} (cbs : Callbacks σ) : Prop :=
  ∀ c a t u, ∃ l : List api_call, (cbs c a t u).1 = run_calls t l

/-- The callback bodies act on the timer table only through the API and never call
`flexitimer_start`. -/
def NoStartBodies {σ : Type} (cbs : Callbacks σ) : Prop :=
  ∀ c a t u, ∃ l : List api_call,
    (∀ x ∈ l, api_call.is_start x = false) ∧ (cbs c a t u).1 = run_calls t l

/-- The tables reachable from the zero-initialised table by any sequence of API calls and
handler passes, the callback bodies (of whatever application) acting on the table only
through the API. -/
inductive Reachable : Table → Prop where
  | zero : Reachable zero_table
  | call {t : Table} (c : api_call) : Reachable t → Reachable (api_call.run t c)
  | pass {σ : Type} {t : Table} (cbs : Callbacks σ) (u : σ) (log : List (Nat × Nat)) :
      ApiBodies cbs → Reachable t → Reachable (flexitimer_handler cbs ⟨t, u, log⟩).timers

/-- Callback bodies given as scripts: the function at address `c`, invoked with the id
`a`, makes the API calls `script c a` in order and does nothing else to the table. -/
def script_callbacks (script : Nat → Nat → List api_call) : Callbacks Unit :=
  fun c a t u => (run_calls t (script c a), u)

/-- The callbacks of `basic_example.c`: `timer_callback_1` (address 1) calls
`flexitimer_start(1, TIMER_TYPE_SINGLESHOT, 3, timer_callback_2)`, `timer_callback_2`
(address 2) calls `flexitimer_start(2, TIMER_TYPE_SINGLESHOT, 2, timer_callback_3)`,
`timer_callback_3` (address 3) and `timer_callback_4` (address 4) only print. -/
def basic_callbacks : Callbacks Unit :=
  script_callbacks (fun c _ =>
    if c = 1 then [.start 1 .SINGLESHOT 3 (some 2)]
    else if c = 2 then [.start 2 .SINGLESHOT 2 (some 3)]
    else [])

/-- The table `main` of `basic_example.c` sets up before its loop: `init`,
`start(0, SINGLESHOT, 5, timer_callback_1)`, `start(2, SINGLESHOT, 0, timer_callback_3)`,
`start(3, PERIODIC, 1, timer_callback_4)`. -/
def basic_example_world : World Unit :=
  fresh_world (flexitimer_start (flexitimer_start (flexitimer_start
    (flexitimer_init zero_table) 0 .SINGLESHOT 5 (some 1)).2
      2 .SINGLESHOT 0 (some 3)).2 3 .PERIODIC 1 (some 4)).2

/-- The callbacks of `traffic_light.c`: `red_light` (address 1) calls
`flexitimer_start(1, TIMER_TYPE_SINGLESHOT, 8, yellow_light)`, `yellow_light` (address 2)
calls `flexitimer_start(2, TIMER_TYPE_SINGLESHOT, 2, green_light)`, `green_light`
(address 3) calls `flexitimer_start(0, TIMER_TYPE_SINGLESHOT, 15, red_light)`. -/
def traffic_callbacks : Callbacks Unit :=
  script_callbacks (fun c _ =>
    if c = 1 then [.start 1 .SINGLESHOT 8 (some 2)]
    else if c = 2 then [.start 2 .SINGLESHOT 2 (some 3)]
    else if c = 3 then [.start 0 .SINGLESHOT 15 (some 1)]
    else [])

/-- The table `main` of `traffic_light.c` sets up before its loop: `init`,
`start(0, SINGLESHOT, 0, green_light)`. -/
def traffic_light_world : World Unit :=
  fresh_world (flexitimer_start (flexitimer_init zero_table) 0 .SINGLESHOT 0 (some 3)).2

/-- Callback bodies for an application in which one timer's callback re-arms its own
slot and another timer's callback stops that timer: the function at address 1 calls
`flexitimer_start(0, TIMER_TYPE_SINGLESHOT, 5, g)` with `g` at address 2, the function at
address 3 calls `flexitimer_cancel(0)`. -/
def interfering_callbacks : Callbacks Unit :=
  script_callbacks (fun c _ =>
    if c = 1 then [.start 0 .SINGLESHOT 5 (some 2)]
    else if c = 3 then [.cancel 0]
    else [])

/-- The callback invocations made during one handler pass from the world `w`, in order. -/
def pass_calls {σ : Type} (cbs : Callbacks σ) (w : World σ) : List (Nat × Nat) :=
  (flexitimer_handler cbs w).calls.drop w.calls.length

/-- What the handler's loop body computes for a slot on its own: the slot after the
pass, when no callback interferes. -/
def tick (s : timer_t) : timer_t :=
  if s.state = .ACTIVE then
    if s.remaining ≤ 1 then
      if s.type = .PERIODIC then { s with remaining := s.timeout }
      else { s with remaining := 0, state := .PASSIVE }
    else { s with remaining := s.remaining - 1 }
  else s

/-- The invocations the handler's loop body makes for the slot `s` with index `i`. -/
def fired (s : timer_t) (i : Nat) : List (Nat × Nat) :=
  if s.state = .ACTIVE ∧ s.remaining ≤ 1 then
    match s.callback with
    | some f => [(f, i)]
    | none => []
  else []

theorem inert_leaves {σ : Type} {cbs : Callbacks σ} (h : Inert cbs)
    (j : Fin FLEXITIMER_MAX_TIMERS) : LeavesSlot cbs j :=
  fun f i t u => by rw [h f i t u]

theorem calls_of_append (id : Nat) (l₁ l₂ : List (Nat × Nat)) :
    calls_of id (l₁ ++ l₂) = calls_of id l₁ ++ calls_of id l₂ := by
  simp [calls_of]

theorem handler_slot_self {σ : Type} (cbs : Callbacks σ) (w : World σ)
    (j : Fin FLEXITIMER_MAX_TIMERS) (hj : LeavesSlot cbs j) :
    (handler_slot cbs w j).timers j = tick (w.timers j) ∧
    calls_of j.val (handler_slot cbs w j).calls
      = calls_of j.val w.calls ++ fired (w.timers j) j.val := by
  by_cases hs : (w.timers j).state = .ACTIVE
  · rcases Nat.lt_or_ge 1 (w.timers j).remaining with hr | hr
    · have h0 : 0 < (w.timers j).remaining := by omega
      have h1 : ¬ (w.timers j).remaining ≤ 1 := by omega
      have h2 : ¬ (w.timers j).remaining - 1 = 0 := by omega
      simp [handler_slot, tick, fired, hs, h0, h1, h2]
    · have h01 : (w.timers j).remaining = 0 ∨ (w.timers j).remaining = 1 := by omega
      by_cases hp : (w.timers j).type = .PERIODIC <;>
      cases hc : (w.timers j).callback <;>
      rcases h01 with h01 | h01 <;>
      simp [handler_slot, tick, fired, hs, hp, hc, h01, calls_of, hj _ _ _ _]
  · simp [handler_slot, tick, fired, hs]

theorem handler_slot_other {σ : Type} (cbs : Callbacks σ) (w : World σ)
    (i j : Fin FLEXITIMER_MAX_TIMERS) (hij : i ≠ j) (hj : LeavesSlot cbs j) :
    (handler_slot cbs w i).timers j = w.timers j ∧
    calls_of j.val (handler_slot cbs w i).calls = calls_of j.val w.calls := by
  have hne : j ≠ i := fun h => hij h.symm
  have hv : ¬ i.val = j.val := fun h => hij (Fin.ext h)
  by_cases hs : (w.timers i).state = .ACTIVE
  · rcases Nat.lt_or_ge 1 (w.timers i).remaining with hr | hr
    · have h0 : 0 < (w.timers i).remaining := by omega
      have h2 : ¬ (w.timers i).remaining - 1 = 0 := by omega
      simp [handler_slot, hs, h0, h2, hne]
    · have h01 : (w.timers i).remaining = 0 ∨ (w.timers i).remaining = 1 := by omega
      by_cases hp : (w.timers i).type = .PERIODIC <;>
      cases hc : (w.timers i).callback <;>
      rcases h01 with h01 | h01 <;>
      simp [handler_slot, hs, hp, hc, h01, calls_of, hj _ _ _ _, hne, hv]
  · simp [handler_slot, hs]

theorem handler_fold_slot {σ : Type} (cbs : Callbacks σ) (j : Fin FLEXITIMER_MAX_TIMERS)
    (hj : LeavesSlot cbs j) (l : List (Fin FLEXITIMER_MAX_TIMERS)) (hl : l.Nodup)
    (w : World σ) :
    (l.foldl (handler_slot cbs) w).timers j
      = (if j ∈ l then tick (w.timers j) else w.timers j) ∧
    calls_of j.val (l.foldl (handler_slot cbs) w).calls
      = calls_of j.val w.calls ++ (if j ∈ l then fired (w.timers j) j.val else []) := by
  induction l generalizing w with
  | nil => simp
  | cons a l ih =>
    have hnd := List.nodup_cons.mp hl
    have ih' := ih hnd.2 (handler_slot cbs w a)
    rw [List.foldl_cons]
    by_cases haj : a = j
    · subst haj
      have hs := handler_slot_self cbs w a hj
      simp only [hnd.1, if_false, List.append_nil] at ih'
      simp [ih'.1, ih'.2, hs.1, hs.2]
    · have ho := handler_slot_other cbs w a j haj hj
      have hja : ¬ j = a := fun h => haj h.symm
      simp [ih'.1, ih'.2, ho.1, ho.2, hja]

/-- One handler pass, seen from a slot that no callback body changes: the slot is
advanced by `tick` and the invocations made for it are exactly `fired`. -/
theorem handler_slot_view {σ : Type} (cbs : Callbacks σ) (j : Fin FLEXITIMER_MAX_TIMERS)
    (hj : LeavesSlot cbs j) (w : World σ) :
    (flexitimer_handler cbs w).timers j = tick (w.timers j) ∧
    calls_of j.val (flexitimer_handler cbs w).calls
      = calls_of j.val w.calls ++ fired (w.timers j) j.val := by
  have h := handler_fold_slot cbs j hj (List.finRange FLEXITIMER_MAX_TIMERS)
    (List.nodup_finRange _) w
  simpa [flexitimer_handler] using h

/-- On a slot that is as `cancel` leaves it, `cancel`, `delay`, `pause`, `resume` and
`restart` with any id and argument change nothing. -/
theorem api_keeps_cancelled (t : Table) (j : Fin FLEXITIMER_MAX_TIMERS) (id extra : Nat)
    (hs : (t j).state = .PASSIVE) (hr : (t j).remaining = 0) (hc : (t j).callback = none) :
    (flexitimer_cancel t id).2 j = t j ∧ (flexitimer_delay t id extra).2 j = t j ∧
    (flexitimer_pause t id).2 j = t j ∧ (flexitimer_resume t id).2 j = t j ∧
    (flexitimer_restart t id).2 j = t j := by
  by_cases hge : id ≥ FLEXITIMER_MAX_TIMERS
  · simp [flexitimer_cancel, flexitimer_delay, flexitimer_pause, flexitimer_resume,
      flexitimer_restart, hge]
  · have hlt : id < FLEXITIMER_MAX_TIMERS := by omega
    by_cases hij : j = ⟨id, hlt⟩
    · subst hij
      refine ⟨?_, ?_, ?_, ?_, ?_⟩
      · simp only [flexitimer_cancel, hge, dite_false, Function.update_same]
        rw [← hs, ← hr, ← hc]
      · simp [flexitimer_delay, hge, hs]
      · simp [flexitimer_pause, hge, hs]
      · simp [flexitimer_resume, hge, hs]
      · simp [flexitimer_restart, hge, hs]
    · refine ⟨?_, ?_, ?_, ?_, ?_⟩
      · simp [flexitimer_cancel, hge, hij]
      · by_cases h : (t ⟨id, hlt⟩).state = .PASSIVE <;>
          simp [flexitimer_delay, hge, hij, h]
      · by_cases h : (t ⟨id, hlt⟩).state = .ACTIVE <;>
          simp [flexitimer_pause, hge, hij, h]
      · by_cases h : (t ⟨id, hlt⟩).state = .PAUSED <;>
          simp [flexitimer_resume, hge, hij, h]
      · by_cases h : (t ⟨id, hlt⟩).state = .PASSIVE <;>
          simp [flexitimer_restart, hge, hij, h]

theorem idle_inert : Inert idle_callbacks := fun _ _ _ _ => rfl

/-- C1: one handler pass on a slot that is Active, with callback bodies that do not touch
the table.  With `r'` the remaining count after the saturating decrement (`r - 1` if
`r > 0`, else `0`): if `r' > 0` the slot keeps every field except `remaining = r'`, stays
Active and no invocation is made for it; if `r' = 0` a Periodic slot ends Active with
`remaining = timeout`, a One-shot slot ends Passive with `remaining = 0`, the registered
callback (if any) is invoked exactly once with the slot's own id, an absent callback gives
no invocation, and the callback reference is still registered after the pass. -/
theorem C1_handler_pass_active_slot {σ : Type} (cbs : Callbacks σ) (hcbs : Inert cbs)
    (w : World σ) (i : Fin FLEXITIMER_MAX_TIMERS)
    (hact : (w.timers i).state = .ACTIVE) (r' : Nat)
    (hr' : r' = if (w.timers i).remaining > 0 then (w.timers i).remaining - 1 else 0) :
    (r' > 0 →
      (flexitimer_handler cbs w).timers i = { w.timers i with remaining := r' } ∧
      ((flexitimer_handler cbs w).timers i).state = .ACTIVE ∧
      calls_of i.val (flexitimer_handler cbs w).calls = calls_of i.val w.calls) ∧
    (r' = 0 →
      ((w.timers i).type = .PERIODIC →
        (flexitimer_handler cbs w).timers i
          = { w.timers i with remaining := (w.timers i).timeout } ∧
        ((flexitimer_handler cbs w).timers i).state = .ACTIVE) ∧
      ((w.timers i).type = .SINGLESHOT →
        (flexitimer_handler cbs w).timers i
          = { w.timers i with remaining := 0, state := .PASSIVE }) ∧
      (∀ f, (w.timers i).callback = some f →
        calls_of i.val (flexitimer_handler cbs w).calls = calls_of i.val w.calls ++ [(f, i.val)]) ∧
      ((w.timers i).callback = none →
        calls_of i.val (flexitimer_handler cbs w).calls = calls_of i.val w.calls) ∧
      ((flexitimer_handler cbs w).timers i).callback = (w.timers i).callback) := by
  obtain ⟨ht, hc⟩ := handler_slot_view cbs i (inert_leaves hcbs i) w
  rw [ht, hc]
  subst hr'
  refine ⟨fun hpos => ?_, fun hzero => ?_⟩
  · have h1 : ¬ (w.timers i).remaining ≤ 1 := by
      intro h; split_ifs at hpos <;> omega
    have h0 : 0 < (w.timers i).remaining := by omega
    simp [tick, fired, hact, h1, h0]
  · have h1 : (w.timers i).remaining ≤ 1 := by
      split_ifs at hzero <;> omega
    refine ⟨fun hp => ?_, fun hp => ?_, fun f hf => ?_, fun hf => ?_, ?_⟩
    · simp [tick, hact, h1, hp]
    · simp [tick, hact, h1, hp]
    · simp [fired, hact, h1, hf]
    · simp [fired, hact, h1, hf]
    · by_cases hp : (w.timers i).type = .PERIODIC <;> simp [tick, hact, h1, hp]

/-- Witness for C1: a One-shot timer with one tick left expires in the pass and its callback
is invoked once. -/
theorem C1_handler_pass_active_slot_witness :
    Inert idle_callbacks ∧
    ((after_start (flexitimer_init zero_table) () 0 .SINGLESHOT 1 7).timers 0).state
      = .ACTIVE ∧
    (flexitimer_handler idle_callbacks
        (after_start (flexitimer_init zero_table) () 0 .SINGLESHOT 1 7)).timers 0
      = ⟨1, 0, .SINGLESHOT, .PASSIVE, some 7⟩ ∧
    calls_of 0 (flexitimer_handler idle_callbacks
        (after_start (flexitimer_init zero_table) () 0 .SINGLESHOT 1 7)).calls
      = [(7, 0)] :=
  ⟨idle_inert, by decide,
   ((C1_handler_pass_active_slot idle_callbacks idle_inert
      (after_start (flexitimer_init zero_table) () 0 .SINGLESHOT 1 7) 0 (by decide) 0
      (by decide)).2 rfl).2.1 (by decide),
   ((C1_handler_pass_active_slot idle_callbacks idle_inert
      (after_start (flexitimer_init zero_table) () 0 .SINGLESHOT 1 7) 0 (by decide) 0
      (by decide)).2 rfl).2.2.1 7 (by decide)⟩

/-- C2: for a valid id and arguments other than (Periodic, 0), `start` returns Ok and
writes `timeout = remaining = timeout`, the kind, `state = Active` and the callback
(present or absent) into slot `id`, whatever the slot held before; every other slot is
unchanged. -/
theorem C2_start_overwrites_slot (timers : Table) (id : Nat) (hid : id < FLEXITIMER_MAX_TIMERS)
    (type : timer_type_t) (timeout : Nat) (callback : Option Nat)
    (hz : ¬ (type = .PERIODIC ∧ timeout = 0)) :
    (flexitimer_start timers id type timeout callback).1 = .OK ∧
    (flexitimer_start timers id type timeout callback).2 ⟨id, hid⟩
      = { timeout := timeout, remaining := timeout, type := type, state := .ACTIVE,
          callback := callback } ∧
    ∀ j : Fin FLEXITIMER_MAX_TIMERS, j.val ≠ id →
      (flexitimer_start timers id type timeout callback).2 j = timers j := by
  have hge : ¬ id ≥ FLEXITIMER_MAX_TIMERS := by omega
  refine ⟨?_, ?_, ?_⟩
  · simp [flexitimer_start, hge, hz]
  · simp [flexitimer_start, hge, hz]
  · intro j hj
    have hne : j ≠ ⟨id, hid⟩ := fun h => hj (by rw [h])
    simp [flexitimer_start, hge, hz, hne]

/-- Witness for C2: the test `StartValidTimer`, `start(0, SINGLESHOT, 100, cb)`. -/
theorem C2_start_overwrites_slot_witness :
    0 < FLEXITIMER_MAX_TIMERS ∧
    ¬ (timer_type_t.SINGLESHOT = .PERIODIC ∧ 100 = 0) ∧
    (flexitimer_start (flexitimer_init zero_table) 0 .SINGLESHOT 100 (some 7)).1 = .OK ∧
    (flexitimer_start (flexitimer_init zero_table) 0 .SINGLESHOT 100 (some 7)).2 0
      = ⟨100, 100, .SINGLESHOT, .ACTIVE, some 7⟩ :=
  ⟨by decide, by decide,
   (C2_start_overwrites_slot (flexitimer_init zero_table) 0 (by decide) .SINGLESHOT 100
      (some 7) (by decide)).1,
   (C2_start_overwrites_slot (flexitimer_init zero_table) 0 (by decide) .SINGLESHOT 100
      (some 7) (by decide)).2.1⟩

/-- C3: the code at the scenario of the test `RestartPassiveSingleShotTimer` (timeout 1).
After `init`, `start(0, One-shot, 1, cb)` and one handler pass, slot 0 is Passive and `cb`
has fired once; `restart(0)` then returns InvalidState instead of Ok and leaves slot 0
Passive with `remaining = 0`, and one more handler pass does not fire `cb` a second time. -/
theorem C3_restart_after_expiry_rejected :
    (expired_oneshot.timers 0).state = .PASSIVE ∧
    expired_oneshot.calls = [(7, 0)] ∧
    (flexitimer_restart expired_oneshot.timers 0).1 = .INVALID_STATE ∧
    (flexitimer_restart expired_oneshot.timers 0).2 = expired_oneshot.timers ∧
    ((flexitimer_restart expired_oneshot.timers 0).2 0).state = .PASSIVE ∧
    ((flexitimer_restart expired_oneshot.timers 0).2 0).remaining = 0 ∧
    (flexitimer_handler idle_callbacks
      { expired_oneshot with timers := (flexitimer_restart expired_oneshot.timers 0).2 }).calls
      = [(7, 0)] := by
  decide

/-- C4: for a valid id, `restart` returns Ok exactly when the slot is not Passive.  On an
Active or Paused slot it sets `remaining = timeout` (also after a `delay` has added to the
countdown) and `state = Active`, leaving timeout, kind, callback and every other slot
unchanged; on a Passive slot it returns InvalidState and the table is unchanged.  Test
scenario: `start(0, One-shot, 2)`, one handler pass (remaining 1), `restart` gives Ok and
remaining 2. -/
theorem C4_restart_iff_not_passive (timers : Table) (id : Nat)
    (hid : id < FLEXITIMER_MAX_TIMERS) :
    ((flexitimer_restart timers id).1 = .OK ↔ (timers ⟨id, hid⟩).state ≠ .PASSIVE) ∧
    ((timers ⟨id, hid⟩).state ≠ .PASSIVE →
      ((flexitimer_restart timers id).2 ⟨id, hid⟩).remaining = (timers ⟨id, hid⟩).timeout ∧
      ((flexitimer_restart timers id).2 ⟨id, hid⟩).state = .ACTIVE ∧
      ((flexitimer_restart timers id).2 ⟨id, hid⟩).timeout = (timers ⟨id, hid⟩).timeout ∧
      ((flexitimer_restart timers id).2 ⟨id, hid⟩).type = (timers ⟨id, hid⟩).type ∧
      ((flexitimer_restart timers id).2 ⟨id, hid⟩).callback = (timers ⟨id, hid⟩).callback ∧
      (∀ j : Fin FLEXITIMER_MAX_TIMERS, j.val ≠ id →
        (flexitimer_restart timers id).2 j = timers j) ∧
      (∀ extra : Nat,
        (flexitimer_restart (flexitimer_delay timers id extra).2 id).1 = .OK ∧
        ((flexitimer_restart (flexitimer_delay timers id extra).2 id).2 ⟨id, hid⟩).remaining
          = (timers ⟨id, hid⟩).timeout)) ∧
    ((timers ⟨id, hid⟩).state = .PASSIVE →
      flexitimer_restart timers id = (.INVALID_STATE, timers)) ∧
    ((flexitimer_handler idle_callbacks
        (fresh_world (flexitimer_start (flexitimer_init zero_table) 0 .SINGLESHOT 2
          (some 7)).2)).timers 0).remaining = 1 ∧
    (flexitimer_restart (flexitimer_handler idle_callbacks
        (fresh_world (flexitimer_start (flexitimer_init zero_table) 0 .SINGLESHOT 2
          (some 7)).2)).timers 0).1 = .OK ∧
    ((flexitimer_restart (flexitimer_handler idle_callbacks
        (fresh_world (flexitimer_start (flexitimer_init zero_table) 0 .SINGLESHOT 2
          (some 7)).2)).timers 0).2 0).remaining = 2 := by
  have hge : ¬ id ≥ FLEXITIMER_MAX_TIMERS := by omega
  refine ⟨?_, ?_, ?_, by decide, by decide, by decide⟩
  · by_cases hs : (timers ⟨id, hid⟩).state = .PASSIVE <;> simp [flexitimer_restart, hge, hs]
  · intro hs
    refine ⟨?_, ?_, ?_, ?_, ?_, ?_, ?_⟩
    · simp [flexitimer_restart, hge, hs]
    · simp [flexitimer_restart, hge, hs]
    · simp [flexitimer_restart, hge, hs]
    · simp [flexitimer_restart, hge, hs]
    · simp [flexitimer_restart, hge, hs]
    · intro j hj
      have hne : j ≠ ⟨id, hid⟩ := fun h => hj (by rw [h])
      simp [flexitimer_restart, hge, hs, hne]
    · intro extra
      simp [flexitimer_restart, flexitimer_delay, hge, hs]
  · intro hs
    simp [flexitimer_restart, hge, hs]

/-- Witness for C4: a Paused timer with a partial countdown is restarted. -/
theorem C4_restart_iff_not_passive_witness :
    3 < FLEXITIMER_MAX_TIMERS ∧
    (flexitimer_restart
      (fun _ => ⟨5, 2, .PERIODIC, .PAUSED, some 7⟩) 3).1 = .OK ∧
    (flexitimer_restart (flexitimer_init zero_table) 3).1 ≠ .OK :=
  ⟨by decide,
   (C4_restart_iff_not_passive (fun _ => ⟨5, 2, .PERIODIC, .PAUSED, some 7⟩) 3
      (by decide)).1.mpr (by decide),
   fun h => ((C4_restart_iff_not_passive (flexitimer_init zero_table) 3
      (by decide)).1.mp h) (by decide)⟩

/-- C9: for a valid id and `remaining + extra ≤ 2 ^ 32 - 1`: on an Active or Paused slot
`delay` returns Ok and sets `remaining` to `remaining + extra`, leaving state, timeout, kind,
callback and every other slot unchanged; on a Passive slot it returns InvalidState and the
table is unchanged.  Test scenarios: `start(0, One-shot, 3)` then `delay(0, 2)` gives Ok and
remaining 5; `delay` on a freshly initialised slot gives InvalidState. -/
theorem C9_delay_adds_to_remaining (timers : Table) (id : Nat)
    (hid : id < FLEXITIMER_MAX_TIMERS) (extra : Nat)
    (hfit : (timers ⟨id, hid⟩).remaining + extra ≤ 2 ^ 32 - 1) :
    ((timers ⟨id, hid⟩).state = .ACTIVE ∨ (timers ⟨id, hid⟩).state = .PAUSED →
      (flexitimer_delay timers id extra).1 = .OK ∧
      (flexitimer_delay timers id extra).2 ⟨id, hid⟩
        = { timers ⟨id, hid⟩ with remaining := (timers ⟨id, hid⟩).remaining + extra } ∧
      ((flexitimer_delay timers id extra).2 ⟨id, hid⟩).state = (timers ⟨id, hid⟩).state ∧
      (∀ j : Fin FLEXITIMER_MAX_TIMERS, j.val ≠ id →
        (flexitimer_delay timers id extra).2 j = timers j)) ∧
    ((timers ⟨id, hid⟩).state = .PASSIVE →
      flexitimer_delay timers id extra = (.INVALID_STATE, timers)) ∧
    (flexitimer_delay
      (flexitimer_start (flexitimer_init zero_table) 0 .SINGLESHOT 3 none).2 0 2).1 = .OK ∧
    ((flexitimer_delay
      (flexitimer_start (flexitimer_init zero_table) 0 .SINGLESHOT 3 none).2 0 2).2
      0).remaining = 5 ∧
    (flexitimer_delay (flexitimer_init zero_table) 0 2).1 = .INVALID_STATE := by
  have hge : ¬ id ≥ FLEXITIMER_MAX_TIMERS := by omega
  have hmod : ((timers ⟨id, hid⟩).remaining + extra) % TIMER_TIME_MOD
      = (timers ⟨id, hid⟩).remaining + extra :=
    Nat.mod_eq_of_lt (by simp only [TIMER_TIME_MOD]; omega)
  refine ⟨fun hs => ?_, fun hs => ?_, by decide, by decide, by decide⟩
  · have hnp : (timers ⟨id, hid⟩).state ≠ .PASSIVE := by
      rcases hs with hs | hs <;> rw [hs] <;> decide
    refine ⟨?_, ?_, ?_, ?_⟩
    · simp [flexitimer_delay, hge, hnp]
    · simp [flexitimer_delay, hge, hnp, hmod]
    · simp [flexitimer_delay, hge, hnp]
    · intro j hj
      have hne : j ≠ ⟨id, hid⟩ := fun h => hj (by rw [h])
      simp [flexitimer_delay, hge, hnp, hne]
  · simp [flexitimer_delay, hge, hs]

/-- Witness for C9: a Paused timer with 4 ticks left is delayed by 10. -/
theorem C9_delay_adds_to_remaining_witness :
    5 < FLEXITIMER_MAX_TIMERS ∧ 4 + 10 ≤ 2 ^ 32 - 1 ∧
    (flexitimer_delay (fun _ => ⟨6, 4, .SINGLESHOT, .PAUSED, none⟩) 5 10).1 = .OK ∧
    (flexitimer_delay (fun _ => ⟨6, 4, .SINGLESHOT, .PAUSED, none⟩) 5 10).2 5
      = ⟨6, 14, .SINGLESHOT, .PAUSED, none⟩ :=
  ⟨by decide, by decide,
   ((C9_delay_adds_to_remaining (fun _ => ⟨6, 4, .SINGLESHOT, .PAUSED, none⟩) 5 (by decide)
      10 (by decide)).1 (Or.inr rfl)).1,
   ((C9_delay_adds_to_remaining (fun _ => ⟨6, 4, .SINGLESHOT, .PAUSED, none⟩) 5 (by decide)
      10 (by decide)).1 (Or.inr rfl)).2.1⟩

/-- C10: for a valid id, `pause` returns Ok exactly when the slot is Active, and then only
the state of that slot changes (to Paused); on a Passive or Paused slot it returns
InvalidState and the table is unchanged. -/
theorem C10_pause_iff_active (timers : Table) (id : Nat)
    (hid : id < FLEXITIMER_MAX_TIMERS) :
    ((flexitimer_pause timers id).1 = .OK ↔ (timers ⟨id, hid⟩).state = .ACTIVE) ∧
    ((timers ⟨id, hid⟩).state = .ACTIVE →
      (flexitimer_pause timers id).2 ⟨id, hid⟩
        = { timers ⟨id, hid⟩ with state := .PAUSED } ∧
      (∀ j : Fin FLEXITIMER_MAX_TIMERS, j.val ≠ id →
        (flexitimer_pause timers id).2 j = timers j)) ∧
    ((timers ⟨id, hid⟩).state = .PASSIVE ∨ (timers ⟨id, hid⟩).state = .PAUSED →
      flexitimer_pause timers id = (.INVALID_STATE, timers)) := by
  have hge : ¬ id ≥ FLEXITIMER_MAX_TIMERS := by omega
  refine ⟨?_, fun hs => ⟨?_, ?_⟩, fun hs => ?_⟩
  · by_cases hs : (timers ⟨id, hid⟩).state = .ACTIVE <;> simp [flexitimer_pause, hge, hs]
  · simp [flexitimer_pause, hge, hs]
  · intro j hj
    have hne : j ≠ ⟨id, hid⟩ := fun h => hj (by rw [h])
    simp [flexitimer_pause, hge, hs, hne]
  · have hna : (timers ⟨id, hid⟩).state ≠ .ACTIVE := by
      rcases hs with hs | hs <;> rw [hs] <;> decide
    simp [flexitimer_pause, hge, hna]

/-- Witness for C10: the test `PauseResumeTimer`, `start(0, SINGLESHOT, 2, NULL)` then
`pause(0)`. -/
theorem C10_pause_iff_active_witness :
    0 < FLEXITIMER_MAX_TIMERS ∧
    (flexitimer_pause
      (flexitimer_start (flexitimer_init zero_table) 0 .SINGLESHOT 2 none).2 0).1 = .OK ∧
    (flexitimer_pause
      (flexitimer_start (flexitimer_init zero_table) 0 .SINGLESHOT 2 none).2 0).2 0
      = ⟨2, 2, .SINGLESHOT, .PAUSED, none⟩ :=
  ⟨by decide,
   (C10_pause_iff_active
      (flexitimer_start (flexitimer_init zero_table) 0 .SINGLESHOT 2 none).2 0
      (by decide)).1.mpr (by decide),
   ((C10_pause_iff_active
      (flexitimer_start (flexitimer_init zero_table) 0 .SINGLESHOT 2 none).2 0
      (by decide)).2.1 (by decide)).1.trans (by decide)⟩

/-- C11: for a valid id, `resume` returns Ok exactly when the slot is Paused, and then only
the state of that slot changes (to Active); on a Passive or Active slot it returns
InvalidState and the table is unchanged. -/
theorem C11_resume_iff_paused (timers : Table) (id : Nat)
    (hid : id < FLEXITIMER_MAX_TIMERS) :
    ((flexitimer_resume timers id).1 = .OK ↔ (timers ⟨id, hid⟩).state = .PAUSED) ∧
    ((timers ⟨id, hid⟩).state = .PAUSED →
      (flexitimer_resume timers id).2 ⟨id, hid⟩
        = { timers ⟨id, hid⟩ with state := .ACTIVE } ∧
      (∀ j : Fin FLEXITIMER_MAX_TIMERS, j.val ≠ id →
        (flexitimer_resume timers id).2 j = timers j)) ∧
    ((timers ⟨id, hid⟩).state = .PASSIVE ∨ (timers ⟨id, hid⟩).state = .ACTIVE →
      flexitimer_resume timers id = (.INVALID_STATE, timers)) := by
  have hge : ¬ id ≥ FLEXITIMER_MAX_TIMERS := by omega
  refine ⟨?_, fun hs => ⟨?_, ?_⟩, fun hs => ?_⟩
  · by_cases hs : (timers ⟨id, hid⟩).state = .PAUSED <;> simp [flexitimer_resume, hge, hs]
  · simp [flexitimer_resume, hge, hs]
  · intro j hj
    have hne : j ≠ ⟨id, hid⟩ := fun h => hj (by rw [h])
    simp [flexitimer_resume, hge, hs, hne]
  · have hna : (timers ⟨id, hid⟩).state ≠ .PAUSED := by
      rcases hs with hs | hs <;> rw [hs] <;> decide
    simp [flexitimer_resume, hge, hna]

/-- Witness for C11: the test `PauseResumeTimer`, `start(0, SINGLESHOT, 2, NULL)`,
`pause(0)`, `resume(0)`. -/
theorem C11_resume_iff_paused_witness :
    0 < FLEXITIMER_MAX_TIMERS ∧
    (flexitimer_resume (flexitimer_pause
      (flexitimer_start (flexitimer_init zero_table) 0 .SINGLESHOT 2 none).2 0).2 0).1 = .OK ∧
    (flexitimer_resume (flexitimer_pause
      (flexitimer_start (flexitimer_init zero_table) 0 .SINGLESHOT 2 none).2 0).2 0).2 0
      = ⟨2, 2, .SINGLESHOT, .ACTIVE, none⟩ :=
  ⟨by decide,
   (C11_resume_iff_paused (flexitimer_pause
      (flexitimer_start (flexitimer_init zero_table) 0 .SINGLESHOT 2 none).2 0).2 0
      (by decide)).1.mpr (by decide),
   ((C11_resume_iff_paused (flexitimer_pause
      (flexitimer_start (flexitimer_init zero_table) 0 .SINGLESHOT 2 none).2 0).2 0
      (by decide)).2.1 (by decide)).1.trans (by decide)⟩

/-- C12: for a valid id and any callback, `start(id, Periodic, 0, callback)` returns
ZeroTimeout and leaves the whole table unchanged, whatever the slot held; and `start`
returns ZeroTimeout only for a Periodic kind with timeout 0 (a One-shot start with timeout 0
on a valid id is accepted with Ok). -/
theorem C12_periodic_zero_rejected (timers : Table) (id : Nat)
    (hid : id < FLEXITIMER_MAX_TIMERS) (callback : Option Nat) :
    flexitimer_start timers id .PERIODIC 0 callback = (.ZERO_TIMEOUT, timers) ∧
    (∀ (id' : Nat) (type : timer_type_t) (timeout : Nat) (cb : Option Nat),
      (flexitimer_start timers id' type timeout cb).1 = .ZERO_TIMEOUT ↔
        (id' < FLEXITIMER_MAX_TIMERS ∧ type = .PERIODIC ∧ timeout = 0)) ∧
    (flexitimer_start timers id .SINGLESHOT 0 callback).1 = .OK := by
  have hge : ¬ id ≥ FLEXITIMER_MAX_TIMERS := by omega
  refine ⟨?_, ?_, ?_⟩
  · simp [flexitimer_start, hge]
  · intro id' type timeout cb
    by_cases h1 : id' ≥ FLEXITIMER_MAX_TIMERS
    · have h2 : ¬ id' < FLEXITIMER_MAX_TIMERS := by omega
      simp [flexitimer_start, h1, h2]
    · have h2 : id' < FLEXITIMER_MAX_TIMERS := by omega
      by_cases h3 : type = .PERIODIC ∧ timeout = 0
      · simp [flexitimer_start, h1, h2, h3]
      · simp only [flexitimer_start, h1, dite_false, h3, if_false, h2, true_and]
        simp
  · simp [flexitimer_start, hge]

/-- Witness for C12: the test `PeriodicTimerZeroTimeout`, `start(0, PERIODIC, 0, cb)`. -/
theorem C12_periodic_zero_rejected_witness :
    0 < FLEXITIMER_MAX_TIMERS ∧
    flexitimer_start (flexitimer_init zero_table) 0 .PERIODIC 0 (some 7)
      = (.ZERO_TIMEOUT, flexitimer_init zero_table) :=
  ⟨by decide,
   (C12_periodic_zero_rejected (flexitimer_init zero_table) 0 (by decide) (some 7)).1⟩

/-- C13: for an id at or above the capacity (in particular `10 ≤ id ≤ 255`), each of
`start`, `delay`, `pause`, `resume`, `restart`, `cancel` returns InvalidId with the table
unchanged, and each of `get_state`, `get_type`, `get_time`, `get_elapsed` returns InvalidId
with its destination unchanged, whatever the other arguments are; for `start` also with
kind Periodic and timeout 0, where InvalidId takes precedence over ZeroTimeout. -/
theorem C13_invalid_id_rejected (timers : Table) (id : Nat)
    (hid : FLEXITIMER_MAX_TIMERS ≤ id) :
    (∀ (type : timer_type_t) (timeout : Nat) (callback : Option Nat),
      flexitimer_start timers id type timeout callback = (.INVALID_ID, timers)) ∧
    (∀ callback : Option Nat,
      flexitimer_start timers id .PERIODIC 0 callback = (.INVALID_ID, timers)) ∧
    (∀ extra : Nat, flexitimer_delay timers id extra = (.INVALID_ID, timers)) ∧
    flexitimer_pause timers id = (.INVALID_ID, timers) ∧
    flexitimer_resume timers id = (.INVALID_ID, timers) ∧
    flexitimer_restart timers id = (.INVALID_ID, timers) ∧
    flexitimer_cancel timers id = (.INVALID_ID, timers) ∧
    (∀ dest : Option timer_state_t,
      flexitimer_get_state timers id dest = (.INVALID_ID, dest)) ∧
    (∀ dest : Option timer_type_t,
      flexitimer_get_type timers id dest = (.INVALID_ID, dest)) ∧
    (∀ dest : Option Nat, flexitimer_get_time timers id dest = (.INVALID_ID, dest)) ∧
    (∀ dest : Option Nat, flexitimer_get_elapsed timers id dest = (.INVALID_ID, dest)) := by
  have hge : id ≥ FLEXITIMER_MAX_TIMERS := hid
  refine ⟨?_, ?_, ?_, ?_, ?_, ?_, ?_, ?_, ?_, ?_, ?_⟩
  · intro type timeout callback
    simp [flexitimer_start, hge]
  · intro callback
    simp [flexitimer_start, hge]
  · intro extra
    simp [flexitimer_delay, hge]
  · simp [flexitimer_pause, hge]
  · simp [flexitimer_resume, hge]
  · simp [flexitimer_restart, hge]
  · simp [flexitimer_cancel, hge]
  · intro dest
    simp [flexitimer_get_state, hge]
  · intro dest
    simp [flexitimer_get_type, hge]
  · intro dest
    simp [flexitimer_get_time, hge]
  · intro dest
    simp [flexitimer_get_elapsed, hge]

/-- Witness for C13: the test `StartInvalidTimerId`,
`start(FLEXITIMER_MAX_TIMERS, SINGLESHOT, 100, cb)`. -/
theorem C13_invalid_id_rejected_witness :
    FLEXITIMER_MAX_TIMERS ≤ 10 ∧
    flexitimer_start (flexitimer_init zero_table) 10 .SINGLESHOT 100 (some 7)
      = (.INVALID_ID, flexitimer_init zero_table) :=
  ⟨by decide,
   (C13_invalid_id_rejected (flexitimer_init zero_table) 10 (by decide)).1
      .SINGLESHOT 100 (some 7)⟩

/-- C14: for a valid id, each query called with an absent (NULL) destination returns
InvalidArg; called with a destination, `get_state`, `get_type`, `get_time` and
`get_elapsed` return Ok and store the slot's state, kind, configured timeout and remaining
countdown respectively (`get_elapsed` yields the remaining ticks); with an id at or above
the capacity and a NULL destination the result is InvalidId.  The queries only read the
table: their embedding, like the source, has no write to it. -/
theorem C14_queries (timers : Table) (id : Nat) (hid : id < FLEXITIMER_MAX_TIMERS) :
    flexitimer_get_state timers id none = (.INVALID_ARG, none) ∧
    flexitimer_get_type timers id none = (.INVALID_ARG, none) ∧
    flexitimer_get_time timers id none = (.INVALID_ARG, none) ∧
    flexitimer_get_elapsed timers id none = (.INVALID_ARG, none) ∧
    (∀ old : timer_state_t,
      flexitimer_get_state timers id (some old) = (.OK, some (timers ⟨id, hid⟩).state)) ∧
    (∀ old : timer_type_t,
      flexitimer_get_type timers id (some old) = (.OK, some (timers ⟨id, hid⟩).type)) ∧
    (∀ old : Nat,
      flexitimer_get_time timers id (some old) = (.OK, some (timers ⟨id, hid⟩).timeout)) ∧
    (∀ old : Nat,
      flexitimer_get_elapsed timers id (some old)
        = (.OK, some (timers ⟨id, hid⟩).remaining)) ∧
    (∀ id' : Nat, FLEXITIMER_MAX_TIMERS ≤ id' →
      (flexitimer_get_state timers id' none).1 = .INVALID_ID ∧
      (flexitimer_get_type timers id' none).1 = .INVALID_ID ∧
      (flexitimer_get_time timers id' none).1 = .INVALID_ID ∧
      (flexitimer_get_elapsed timers id' none).1 = .INVALID_ID) := by
  have hge : ¬ id ≥ FLEXITIMER_MAX_TIMERS := by omega
  refine ⟨?_, ?_, ?_, ?_, ?_, ?_, ?_, ?_, ?_⟩
  · simp [flexitimer_get_state, hge]
  · simp [flexitimer_get_type, hge]
  · simp [flexitimer_get_time, hge]
  · simp [flexitimer_get_elapsed, hge]
  · intro old
    simp [flexitimer_get_state, hge]
  · intro old
    simp [flexitimer_get_type, hge]
  · intro old
    simp [flexitimer_get_time, hge]
  · intro old
    simp [flexitimer_get_elapsed, hge]
  · intro id' hid'
    have hge' : id' ≥ FLEXITIMER_MAX_TIMERS := hid'
    simp [flexitimer_get_state, flexitimer_get_type, flexitimer_get_time,
      flexitimer_get_elapsed, hge']

/-- Witness for C14: the test `GetFunctionsWithNullArg` on slot 0, and the read-back of
the test `DelayActiveTimer` (`start(0, SINGLESHOT, 3, NULL)`, `delay(0, 2)`,
`get_elapsed(0, &remaining)` stores 5). -/
theorem C14_queries_witness :
    0 < FLEXITIMER_MAX_TIMERS ∧
    flexitimer_get_state (flexitimer_init zero_table) 0 none = (.INVALID_ARG, none) ∧
    flexitimer_get_elapsed (flexitimer_delay
      (flexitimer_start (flexitimer_init zero_table) 0 .SINGLESHOT 3 none).2 0 2).2 0 (some 0)
      = (.OK, some 5) :=
  ⟨by decide,
   (C14_queries (flexitimer_init zero_table) 0 (by decide)).1,
   ((C14_queries (flexitimer_delay
      (flexitimer_start (flexitimer_init zero_table) 0 .SINGLESHOT 3 none).2 0 2).2 0
      (by decide)).2.2.2.2.2.2.2.1 0).trans (by decide)⟩

/-- Cancelling the ids `0 .. n - 1` in order, as the loop of `flexitimer_init` does up to its
`n`-th iteration, clears exactly the slots below `n`. -/
theorem cancel_range (timers : Table) (n : Nat) (j : Fin FLEXITIMER_MAX_TIMERS) :
    ((List.range n).foldl (fun t i => (flexitimer_cancel t i).2) timers) j
      = if j.val < n then
          { timers j with state := .PASSIVE, remaining := 0, callback := none }
        else timers j := by
  induction n with
  | zero => simp
  | succ n ih =>
    rw [List.range_succ, List.foldl_append, List.foldl_cons, List.foldl_nil]
    generalize (List.range n).foldl (fun t i => (flexitimer_cancel t i).2) timers = T at ih ⊢
    show (flexitimer_cancel T n).2 j = _
    by_cases hge : n ≥ FLEXITIMER_MAX_TIMERS
    · have h1 : j.val < n := by omega
      have h2 : j.val < n + 1 := by omega
      simp only [h1, if_true] at ih
      simp only [flexitimer_cancel, hge, dite_true, ih, h2, if_true]
    · have hlt : n < FLEXITIMER_MAX_TIMERS := by omega
      by_cases hj : j = ⟨n, hlt⟩
      · subst hj
        have h1 : ¬ n < n := by omega
        simp only [h1, if_false] at ih
        simp [flexitimer_cancel, hge, ih]
      · have hv : j.val ≠ n := fun h => hj (Fin.ext h)
        have h3 : (j.val < n + 1) = (j.val < n) := by
          apply propext; omega
        simp only [flexitimer_cancel, hge, dite_false, ne_eq, hj, not_false_eq_true,
          Function.update_noteq, ih, h3]

/-- C15: after `init`, every slot is Passive with `remaining = 0` and no callback, while
its timeout and kind are what they were before; and the table `init` produces is the one
obtained by calling `cancel` on the ids 0, 1, ..., 9 in turn. -/
theorem C15_init_cancels_every_slot (timers : Table) :
    (∀ j : Fin FLEXITIMER_MAX_TIMERS,
      ((flexitimer_init timers) j).state = .PASSIVE ∧
      ((flexitimer_init timers) j).remaining = 0 ∧
      ((flexitimer_init timers) j).callback = none ∧
      ((flexitimer_init timers) j).timeout = (timers j).timeout ∧
      ((flexitimer_init timers) j).type = (timers j).type) ∧
    flexitimer_init timers
      = (flexitimer_cancel (flexitimer_cancel (flexitimer_cancel (flexitimer_cancel
          (flexitimer_cancel (flexitimer_cancel (flexitimer_cancel (flexitimer_cancel
            (flexitimer_cancel (flexitimer_cancel timers 0).2 1).2 2).2 3).2 4).2 5).2 6).2
              7).2 8).2 9).2 ∧
    (∀ j : Fin FLEXITIMER_MAX_TIMERS,
      (flexitimer_init (fun _ => ⟨5, 2, .PERIODIC, .ACTIVE, some 7⟩)) j
        = ⟨5, 0, .PERIODIC, .PASSIVE, none⟩) := by
  refine ⟨fun j => ?_, rfl, by decide⟩
  have h := cancel_range timers FLEXITIMER_MAX_TIMERS j
  have hj : j.val < FLEXITIMER_MAX_TIMERS := j.isLt
  simp only [hj, if_true] at h
  simp [flexitimer_init, h]

theorem calls_of_fired (s : timer_t) (a x : Fin FLEXITIMER_MAX_TIMERS) :
    calls_of x.val (fired s a.val) = if a = x then fired s a.val else [] := by
  by_cases hf : s.state = .ACTIVE ∧ s.remaining ≤ 1
  · by_cases hax : a = x
    · cases hc : s.callback <;> simp [fired, calls_of, hf, hc, hax]
    · have hv : ¬ a.val = x.val := fun h => hax (Fin.ext h)
      cases hc : s.callback <;> simp [fired, calls_of, hf, hc, hax, hv]
  · simp [fired, calls_of, hf]

/-- The loop body for a slot whose callback, if any, leaves the table alone: the slot is
advanced by `tick`, nothing else changes, and the invocations made are `fired`. -/
theorem handler_slot_quiet {σ : Type} (cbs : Callbacks σ) (w : World σ)
    (a : Fin FLEXITIMER_MAX_TIMERS)
    (hq : ∀ c, (w.timers a).callback = some c → ∀ n t u, (cbs c n t u).1 = t) :
    (handler_slot cbs w a).timers = Function.update w.timers a (tick (w.timers a)) ∧
    (handler_slot cbs w a).calls = w.calls ++ fired (w.timers a) a.val := by
  by_cases hs : (w.timers a).state = .ACTIVE
  · rcases Nat.lt_or_ge 1 (w.timers a).remaining with hr | hr
    · have h0 : 0 < (w.timers a).remaining := by omega
      have h1 : ¬ (w.timers a).remaining ≤ 1 := by omega
      have h2 : ¬ (w.timers a).remaining - 1 = 0 := by omega
      simp [handler_slot, tick, fired, hs, h0, h1, h2]
    · have h01 : (w.timers a).remaining = 0 ∨ (w.timers a).remaining = 1 := by omega
      cases hc : (w.timers a).callback with
      | none =>
        by_cases hp : (w.timers a).type = .PERIODIC <;>
        rcases h01 with h01 | h01 <;>
        simp [handler_slot, tick, fired, hs, hp, hc, h01]
      | some c =>
        have hqc := hq c hc
        by_cases hp : (w.timers a).type = .PERIODIC <;>
        rcases h01 with h01 | h01 <;>
        simp [handler_slot, tick, fired, hs, hp, hc, h01, hqc]
  · simp [handler_slot, tick, fired, hs]

/-- The loop body for an expiring slot with a callback: the expiry is recorded in the
slot, then the callback body runs on the table. -/
theorem handler_slot_fire {σ : Type} (cbs : Callbacks σ) (w : World σ)
    (i : Fin FLEXITIMER_MAX_TIMERS) (f : Nat) (hs : (w.timers i).state = .ACTIVE)
    (hr : (w.timers i).remaining ≤ 1) (hc : (w.timers i).callback = some f) :
    (handler_slot cbs w i).timers
      = (cbs f i.val (Function.update w.timers i (tick (w.timers i))) w.user).1 ∧
    (handler_slot cbs w i).calls = w.calls ++ [(f, i.val)] := by
  have h01 : (w.timers i).remaining = 0 ∨ (w.timers i).remaining = 1 := by omega
  by_cases hp : (w.timers i).type = .PERIODIC <;>
  rcases h01 with h01 | h01 <;>
  simp [handler_slot, tick, hs, hp, hc, h01]

/-- A stretch of the handler's loop over slots whose callbacks leave the table alone:
each slot of the stretch is advanced by `tick`, the others are unchanged, and the
invocations made for a slot are its `fired`. -/
theorem handler_fold_quiet {σ : Type} (cbs : Callbacks σ)
    (l : List (Fin FLEXITIMER_MAX_TIMERS)) (hl : l.Nodup) (w : World σ)
    (hq : ∀ m ∈ l, ∀ c, (w.timers m).callback = some c → ∀ n t u, (cbs c n t u).1 = t)
    (x : Fin FLEXITIMER_MAX_TIMERS) :
    (l.foldl (handler_slot cbs) w).timers x
      = (if x ∈ l then tick (w.timers x) else w.timers x) ∧
    calls_of x.val (l.foldl (handler_slot cbs) w).calls
      = calls_of x.val w.calls ++ (if x ∈ l then fired (w.timers x) x.val else []) := by
  induction l generalizing w with
  | nil => simp
  | cons a l ih =>
    have hnd := List.nodup_cons.mp hl
    obtain ⟨hT, hC⟩ := handler_slot_quiet cbs w a (hq a (List.mem_cons_self a l))
    have hq' : ∀ m ∈ l, ∀ c, ((handler_slot cbs w a).timers m).callback = some c →
        ∀ n t u, (cbs c n t u).1 = t := by
      intro m hm c hc
      have hma : m ≠ a := fun h => hnd.1 (h ▸ hm)
      rw [hT, Function.update_noteq hma] at hc
      exact hq m (List.mem_cons_of_mem a hm) c hc
    obtain ⟨ih1, ih2⟩ := ih hnd.2 (handler_slot cbs w a) hq'
    rw [List.foldl_cons, ih1, ih2, hT, hC, calls_of_append, calls_of_fired]
    refine ⟨?_, ?_⟩
    · by_cases hxa : x = a
      · subst hxa
        simp [hnd.1]
      · simp [hxa, Function.update_noteq hxa]
    · by_cases hxa : x = a
      · subst hxa
        simp [hnd.1]
      · have hax : ¬ a = x := fun h => hxa h.symm
        simp [hxa, hax, Function.update_noteq hxa]

/-- The ascending scan order split at a slot: the slots below it, the slot, the slots
above it. -/
theorem finRange_split (i : Fin FLEXITIMER_MAX_TIMERS) :
    ∃ l₁ l₂ : List (Fin FLEXITIMER_MAX_TIMERS),
      List.finRange FLEXITIMER_MAX_TIMERS = l₁ ++ i :: l₂ ∧
      l₁.Nodup ∧ l₂.Nodup ∧ (∀ m, m ∈ l₁ ↔ m < i) ∧ (∀ m, m ∈ l₂ ↔ i < m) := by
  obtain ⟨l₁, l₂, h⟩ := List.append_of_mem (List.mem_finRange i)
  have hp := List.pairwise_lt_finRange FLEXITIMER_MAX_TIMERS
  have hn := List.nodup_finRange FLEXITIMER_MAX_TIMERS
  rw [h] at hp hn
  rw [List.pairwise_append] at hp
  obtain ⟨_, hp2, hp3⟩ := hp
  rw [List.pairwise_cons] at hp2
  rw [List.nodup_append] at hn
  obtain ⟨hn1, hn2, _⟩ := hn
  have hall : ∀ m : Fin FLEXITIMER_MAX_TIMERS, m ∈ l₁ ∨ m = i ∨ m ∈ l₂ := by
    intro m
    have hm := List.mem_finRange m
    rw [h] at hm
    simpa using hm
  refine ⟨l₁, l₂, h, hn1, (List.nodup_cons.mp hn2).2, fun m => ⟨fun hm => ?_, fun hm => ?_⟩,
    fun m => ⟨fun hm => ?_, fun hm => ?_⟩⟩
  · exact hp3 m hm i (List.mem_cons_self i l₂)
  · rcases hall m with h1 | h1 | h1
    · exact h1
    · exact absurd (h1 ▸ hm) (lt_irrefl _)
    · exact absurd (lt_trans (hp2.1 m h1) hm) (lt_irrefl _)
  · exact hp2.1 m hm
  · rcases hall m with h1 | h1 | h1
    · exact absurd (lt_trans (hp3 m h1 i (List.mem_cons_self i l₂)) hm) (lt_irrefl _)
    · exact absurd (h1 ▸ hm) (lt_irrefl _)
    · exact h1

theorem tick_callback (s : timer_t) : (tick s).callback = s.callback := by
  unfold tick
  split_ifs <;> rfl

theorem start_writes_slot (tbl : Table) (j : Fin FLEXITIMER_MAX_TIMERS) (kind : timer_type_t)
    (t : Nat) (cb : Option Nat) (hz : ¬ (kind = .PERIODIC ∧ t = 0)) :
    (flexitimer_start tbl j.val kind t cb).2
      = Function.update tbl j ⟨t, t, kind, .ACTIVE, cb⟩ := by
  have hge : ¬ j.val ≥ FLEXITIMER_MAX_TIMERS := by
    have := j.isLt
    omega
  simp [flexitimer_start, hge, hz]

/-- One handler pass in which slot `i` expires and its callback `f` (registered on no other
slot, all other callback bodies leaving the table alone) calls `start(j, kind, t, g)`:
slot `j` ends the pass with the new configuration, advanced by one `tick` exactly when it
is scanned after `i`; the invocations made for `j` are those of its previous configuration
when it was scanned before `i`, the call of `f` when `j = i`, and those of the new
configuration when it is scanned after `i`. -/
theorem rearm_pass {σ : Type} (cbs : Callbacks σ) (w : World σ)
    (i j : Fin FLEXITIMER_MAX_TIMERS) (f g : Nat) (kind : timer_type_t) (t : Nat)
    (hin : InertExcept cbs f)
    (hf : ∀ a tbl u, (cbs f a tbl u).1 = (flexitimer_start tbl j.val kind t (some g)).2)
    (hz : ¬ (kind = .PERIODIC ∧ t = 0))
    (hs : (w.timers i).state = .ACTIVE) (hr : (w.timers i).remaining ≤ 1)
    (hc : (w.timers i).callback = some f)
    (honly : ∀ m, m ≠ i → (w.timers m).callback ≠ some f)
    (hg : i < j → g ≠ f) :
    (flexitimer_handler cbs w).timers j
      = (if i < j then tick ⟨t, t, kind, .ACTIVE, some g⟩
         else ⟨t, t, kind, .ACTIVE, some g⟩) ∧
    calls_of j.val (flexitimer_handler cbs w).calls
      = calls_of j.val w.calls ++
        (if j < i then fired (w.timers j) j.val
         else if j = i then [(f, i.val)]
         else fired ⟨t, t, kind, .ACTIVE, some g⟩ j.val) := by
  obtain ⟨l₁, l₂, hsplit, hn1, hn2, hm1, hm2⟩ := finRange_split i
  have hil1 : i ∉ l₁ := fun h => lt_irrefl i ((hm1 i).1 h)
  -- the slots scanned before `i`
  have hqA : ∀ m ∈ l₁, ∀ c, (w.timers m).callback = some c →
      ∀ n t u, (cbs c n t u).1 = t := by
    intro m hm c hcm
    have hmi : m ≠ i := ne_of_lt ((hm1 m).1 hm)
    exact hin c (fun hcf => honly m hmi (hcf ▸ hcm))
  have hA := handler_fold_quiet cbs l₁ hn1 w hqA
  have hAcb : ∀ x, ((l₁.foldl (handler_slot cbs) w).timers x).callback
      = (w.timers x).callback := by
    intro x
    rw [(hA x).1]
    split_ifs
    · exact tick_callback _
    · rfl
  have hAi : (l₁.foldl (handler_slot cbs) w).timers i = w.timers i := by
    rw [(hA i).1]
    simp [hil1]
  -- the slot `i`
  obtain ⟨hT, hC⟩ := handler_slot_fire cbs (l₁.foldl (handler_slot cbs) w) i f
    (by rw [hAi]; exact hs) (by rw [hAi]; exact hr) (by rw [hAi]; exact hc)
  rw [hf, start_writes_slot _ j kind t (some g) hz] at hT
  -- the slots scanned after `i`
  have hqB : ∀ m ∈ l₂, ∀ c,
      ((handler_slot cbs (l₁.foldl (handler_slot cbs) w) i).timers m).callback = some c →
      ∀ n t u, (cbs c n t u).1 = t := by
    intro m hm c hcm
    have him : i < m := (hm2 m).1 hm
    have hmi : m ≠ i := ne_of_gt him
    rw [hT] at hcm
    by_cases hmj : m = j
    · subst hmj
      rw [Function.update_same] at hcm
      have hcg : c = g := by
        simp only [Option.some.injEq] at hcm
        exact hcm.symm
      rw [hcg]
      exact hin g (hg him)
    · rw [Function.update_noteq hmj, Function.update_noteq hmi, hAcb] at hcm
      exact hin c (fun hcf => honly m hmi (hcf ▸ hcm))
  obtain ⟨hB1, hB2⟩ := handler_fold_quiet cbs l₂ hn2
    (handler_slot cbs (l₁.foldl (handler_slot cbs) w) i) hqB j
  have hfold : flexitimer_handler cbs w
      = l₂.foldl (handler_slot cbs) (handler_slot cbs (l₁.foldl (handler_slot cbs) w) i) := by
    unfold flexitimer_handler
    rw [hsplit, List.foldl_append, List.foldl_cons]
  rw [hfold, hB1, hB2, hC, calls_of_append, (hA j).2, hT, Function.update_same]
  simp only [hm1 j, hm2 j, true_and]
  rcases lt_trichotomy j i with hji | hji | hji
  · have h1 : ¬ i < j := not_lt.mpr (le_of_lt hji)
    have h2 : ¬ i.val = j.val := fun h => (ne_of_lt hji) (Fin.ext h.symm)
    simp [hji, h1, calls_of, h2]
  · subst hji
    simp [calls_of]
  · have h1 : ¬ j < i := not_lt.mpr (le_of_lt hji)
    have h2 : ¬ i.val = j.val := fun h => (ne_of_lt hji) (Fin.ext h)
    have h3 : ¬ j = i := fun h => (ne_of_lt hji) h.symm
    simp [hji, h1, calls_of, h2, h3]

theorem rearm_callbacks_inert_except (f j : Nat) (type : timer_type_t) (timeout g : Nat) :
    InertExcept (rearm_callbacks f j type timeout g) f :=
  fun c hc _ _ _ => by simp [rearm_callbacks, hc]

theorem rearm_callbacks_body (f j : Nat) (type : timer_type_t) (timeout g : Nat) :
    ∀ (a : Nat) (tbl : Table) (u : Unit),
      (rearm_callbacks f j type timeout g f a tbl u).1
        = (flexitimer_start tbl j type timeout (some g)).2 :=
  fun _ _ _ => by simp [rearm_callbacks]

/-- C19: timers progress independently.  With callback bodies that do not touch the table,
one handler pass makes of slot `i` a function of that slot alone (`tick`), and the
invocations it makes for `i` are a function of that slot alone (`fired`); hence two tables
that agree on slot `i` (even with different applications behind them) give the same slot
`i` and the same invocations for `i` after any number of passes.  Test scenario: slot 0
One-shot with timeout 1 and slot 1 Periodic with timeout 2 sharing one callback give the
total invocation counts 1, 2, 2, 3 after passes 1, 2, 3, 4. -/
theorem C19_timers_independent {σ₁ σ₂ : Type} (cbs₁ : Callbacks σ₁) (cbs₂ : Callbacks σ₂)
    (h₁ : Inert cbs₁) (h₂ : Inert cbs₂) (w₁ : World σ₁) (w₂ : World σ₂)
    (i : Fin FLEXITIMER_MAX_TIMERS) (hagree : w₁.timers i = w₂.timers i) :
    ((flexitimer_handler cbs₁ w₁).timers i = tick (w₁.timers i) ∧
      calls_of i.val (flexitimer_handler cbs₁ w₁).calls
        = calls_of i.val w₁.calls ++ fired (w₁.timers i) i.val) ∧
    (∀ k : Nat,
      (handler_passes cbs₁ k w₁).timers i = (handler_passes cbs₂ k w₂).timers i ∧
      ∃ d : List (Nat × Nat),
        calls_of i.val (handler_passes cbs₁ k w₁).calls = calls_of i.val w₁.calls ++ d ∧
        calls_of i.val (handler_passes cbs₂ k w₂).calls = calls_of i.val w₂.calls ++ d) ∧
    (List.range 5).map (fun k => (handler_passes idle_callbacks k
        (fresh_world (flexitimer_start
          (flexitimer_start (flexitimer_init zero_table) 0 .SINGLESHOT 1 (some 7)).2
          1 .PERIODIC 2 (some 7)).2)).calls.length)
      = [0, 1, 2, 2, 3] := by
  refine ⟨handler_slot_view cbs₁ i (inert_leaves h₁ i) w₁, fun k => ?_, by decide⟩
  induction k with
  | zero => exact ⟨hagree, [], by simp [handler_passes], by simp [handler_passes]⟩
  | succ k ih =>
    obtain ⟨hT, d, hd1, hd2⟩ := ih
    obtain ⟨hT1, hC1⟩ := handler_slot_view cbs₁ i (inert_leaves h₁ i) (handler_passes cbs₁ k w₁)
    obtain ⟨hT2, hC2⟩ := handler_slot_view cbs₂ i (inert_leaves h₂ i) (handler_passes cbs₂ k w₂)
    simp only [handler_passes]
    rw [hT1, hT2, hC1, hC2, hT, hd1, hd2]
    exact ⟨rfl, d ++ fired ((handler_passes cbs₂ k w₂).timers i) i.val,
      by rw [List.append_assoc], by rw [List.append_assoc]⟩

/-- Witness for C19: slot 1 of the two-timer test scenario and slot 1 of a table holding
only that Periodic timer are the same after three passes. -/
theorem C19_timers_independent_witness :
    Inert idle_callbacks ∧
    (fresh_world (flexitimer_start
        (flexitimer_start (flexitimer_init zero_table) 0 .SINGLESHOT 1 (some 7)).2
        1 .PERIODIC 2 (some 7)).2).timers 1
      = (after_start (flexitimer_init zero_table) () 1 .PERIODIC 2 7).timers 1 ∧
    (handler_passes idle_callbacks 3 (fresh_world (flexitimer_start
        (flexitimer_start (flexitimer_init zero_table) 0 .SINGLESHOT 1 (some 7)).2
        1 .PERIODIC 2 (some 7)).2)).timers 1
      = (handler_passes idle_callbacks 3
          (after_start (flexitimer_init zero_table) () 1 .PERIODIC 2 7)).timers 1 :=
  ⟨idle_inert, by decide,
   ((C19_timers_independent idle_callbacks idle_callbacks idle_inert idle_inert
      (fresh_world (flexitimer_start
        (flexitimer_start (flexitimer_init zero_table) 0 .SINGLESHOT 1 (some 7)).2
        1 .PERIODIC 2 (some 7)).2)
      (after_start (flexitimer_init zero_table) () 1 .PERIODIC 2 7) 1 (by decide)).2.1 3).1⟩

/-- The two shapes of the loop body's effect on the table: either it only advances slot
`i` by `tick`, or slot `i` expires with a callback `f` registered and the body of `f` runs
on the table in which the expiry has been recorded. -/
theorem handler_slot_shape {σ : Type} (cbs : Callbacks σ) (w : World σ)
    (i : Fin FLEXITIMER_MAX_TIMERS) :
    (handler_slot cbs w i).timers = Function.update w.timers i (tick (w.timers i)) ∨
    ∃ f, (w.timers i).callback = some f ∧
      (handler_slot cbs w i).timers
        = (cbs f i.val (Function.update w.timers i (tick (w.timers i))) w.user).1 := by
  by_cases hs : (w.timers i).state = .ACTIVE
  · rcases Nat.lt_or_ge 1 (w.timers i).remaining with hr | hr
    · have h0 : 0 < (w.timers i).remaining := by omega
      have h1 : ¬ (w.timers i).remaining ≤ 1 := by omega
      have h2 : ¬ (w.timers i).remaining - 1 = 0 := by omega
      left
      simp [handler_slot, tick, hs, h0, h1, h2]
    · cases hc : (w.timers i).callback with
      | none =>
        left
        exact (handler_slot_quiet cbs w i (fun c hcc => by rw [hc] at hcc; cases hcc)).1
      | some f =>
        right
        exact ⟨f, rfl, (handler_slot_fire cbs w i f hs hr hc).1⟩
  · left
    simp [handler_slot, tick, hs]

theorem handler_slot_keeps_callback {σ : Type} (cbs : Callbacks σ) (hk : KeepsCallbacks cbs)
    (w : World σ) (i j : Fin FLEXITIMER_MAX_TIMERS) (hreg : (w.timers j).callback ≠ none) :
    ((handler_slot cbs w i).timers j).callback ≠ none := by
  have hupd : ((Function.update w.timers i (tick (w.timers i))) j).callback ≠ none := by
    by_cases hji : j = i
    · subst hji
      rw [Function.update_same, tick_callback]
      exact hreg
    · rw [Function.update_noteq hji]
      exact hreg
  rcases handler_slot_shape cbs w i with h | ⟨f, _, h⟩
  · rw [h]
    exact hupd
  · rw [h]
    exact hk f i.val _ w.user j hupd

theorem handler_fold_keeps_callback {σ : Type} (cbs : Callbacks σ) (hk : KeepsCallbacks cbs)
    (l : List (Fin FLEXITIMER_MAX_TIMERS)) (w : World σ) (j : Fin FLEXITIMER_MAX_TIMERS)
    (hreg : (w.timers j).callback ≠ none) :
    ((l.foldl (handler_slot cbs) w).timers j).callback ≠ none := by
  induction l generalizing w with
  | nil => exact hreg
  | cons a l ih =>
    rw [List.foldl_cons]
    exact ih (handler_slot cbs w a) (handler_slot_keeps_callback cbs hk w a j hreg)

/-- A handler pass, with callback bodies that clear no callback reference, clears none. -/
theorem handler_keeps_callback {σ : Type} (cbs : Callbacks σ) (hk : KeepsCallbacks cbs)
    (w : World σ) (j : Fin FLEXITIMER_MAX_TIMERS) (hreg : (w.timers j).callback ≠ none) :
    ((flexitimer_handler cbs w).timers j).callback ≠ none := by
  unfold flexitimer_handler
  exact handler_fold_keeps_callback cbs hk (List.finRange FLEXITIMER_MAX_TIMERS) w j hreg

/-- The functions `delay`, `pause`, `resume` and `restart` never write the callback field:
with any id and argument, successful or not, every slot has the callback it had. -/
theorem api_keeps_callback_field (t : Table) (j : Fin FLEXITIMER_MAX_TIMERS)
    (id extra : Nat) :
    ((flexitimer_delay t id extra).2 j).callback = (t j).callback ∧
    ((flexitimer_pause t id).2 j).callback = (t j).callback ∧
    ((flexitimer_resume t id).2 j).callback = (t j).callback ∧
    ((flexitimer_restart t id).2 j).callback = (t j).callback := by
  by_cases hge : id ≥ FLEXITIMER_MAX_TIMERS
  · simp [flexitimer_delay, flexitimer_pause, flexitimer_resume, flexitimer_restart, hge]
  · have hlt : id < FLEXITIMER_MAX_TIMERS := by omega
    by_cases hij : j = ⟨id, hlt⟩
    · subst hij
      refine ⟨?_, ?_, ?_, ?_⟩
      · by_cases h : (t ⟨id, hlt⟩).state = .PASSIVE <;> simp [flexitimer_delay, hge, h]
      · by_cases h : (t ⟨id, hlt⟩).state = .ACTIVE <;> simp [flexitimer_pause, hge, h]
      · by_cases h : (t ⟨id, hlt⟩).state = .PAUSED <;> simp [flexitimer_resume, hge, h]
      · by_cases h : (t ⟨id, hlt⟩).state = .PASSIVE <;> simp [flexitimer_restart, hge, h]
    · refine ⟨?_, ?_, ?_, ?_⟩
      · by_cases h : (t ⟨id, hlt⟩).state = .PASSIVE <;>
          simp [flexitimer_delay, hge, hij, h]
      · by_cases h : (t ⟨id, hlt⟩).state = .ACTIVE <;>
          simp [flexitimer_pause, hge, hij, h]
      · by_cases h : (t ⟨id, hlt⟩).state = .PAUSED <;>
          simp [flexitimer_resume, hge, hij, h]
      · by_cases h : (t ⟨id, hlt⟩).state = .PASSIVE <;>
          simp [flexitimer_restart, hge, hij, h]

/-- What `start` makes of the callback field of a slot: a successful `start` on the slot's
own id stores its callback argument (NULL included); otherwise the field is kept. -/
theorem start_callback_field (t : Table) (j : Fin FLEXITIMER_MAX_TIMERS) (id : Nat)
    (type : timer_type_t) (timeout : Nat) (cb : Option Nat) :
    ((flexitimer_start t id type timeout cb).2 j).callback
      = if (flexitimer_start t id type timeout cb).1 = .OK ∧ j.val = id then cb
        else (t j).callback := by
  by_cases hge : id ≥ FLEXITIMER_MAX_TIMERS
  · simp [flexitimer_start, hge]
  · have hlt : id < FLEXITIMER_MAX_TIMERS := by omega
    by_cases hz : type = .PERIODIC ∧ timeout = 0
    · simp [flexitimer_start, hge, hz]
    · by_cases hij : j = ⟨id, hlt⟩
      · subst hij
        simp [flexitimer_start, hge, hz]
      · have hv : ¬ j.val = id := fun h => hij (Fin.ext h)
        simp [flexitimer_start, hge, hz, hij, hv]

/-- C20, as stated, fails on the code: after `start(0, One-shot, 1, cb)` slot 0 has a
callback registered, and the successful call `start(0, One-shot, 3, NULL)` (the call of the
test `DelayActiveTimer`) leaves slot 0 with no callback. -/
theorem C20_start_with_null_clears_callback :
    ((flexitimer_start (flexitimer_init zero_table) 0 .SINGLESHOT 1 (some 7)).2 0).callback
      = some 7 ∧
    (flexitimer_start
      (flexitimer_start (flexitimer_init zero_table) 0 .SINGLESHOT 1 (some 7)).2
      0 .SINGLESHOT 3 none).1 = .OK ∧
    ((flexitimer_start
      (flexitimer_start (flexitimer_init zero_table) 0 .SINGLESHOT 1 (some 7)).2
      0 .SINGLESHOT 3 none).2 0).callback = none := by
  decide

/-- C20, amended: `cancel` and a successful `start` whose callback argument is NULL are the
only operations that clear the callback reference.  For a slot `j` that has a callback
registered: after `delay`, `pause`, `resume` or `restart` with any id, successful or not,
it still has one; a failing `start` leaves the table unchanged; a successful `start` on
another id keeps the slot's callback and a successful `start` on the slot's own id stores
exactly the callback passed, so the slot still has one unless NULL was passed; after a
handler pass, with callback bodies that do not themselves clear a callback reference, it
still has one; and `cancel` on the slot clears it.  The queries do not write the table. -/
theorem C20_callback_kept_unless_cancel_or_null_start (timers : Table)
    (j : Fin FLEXITIMER_MAX_TIMERS) (hreg : (timers j).callback ≠ none) :
    (∀ id extra : Nat, ((flexitimer_delay timers id extra).2 j).callback ≠ none) ∧
    (∀ id : Nat, ((flexitimer_pause timers id).2 j).callback ≠ none) ∧
    (∀ id : Nat, ((flexitimer_resume timers id).2 j).callback ≠ none) ∧
    (∀ id : Nat, ((flexitimer_restart timers id).2 j).callback ≠ none) ∧
    (∀ (id : Nat) (type : timer_type_t) (timeout : Nat) (cb : Option Nat),
      ((flexitimer_start timers id type timeout cb).1 ≠ .OK →
        (flexitimer_start timers id type timeout cb).2 = timers) ∧
      ((flexitimer_start timers id type timeout cb).1 = .OK → j.val ≠ id →
        ((flexitimer_start timers id type timeout cb).2 j).callback = (timers j).callback) ∧
      ((flexitimer_start timers id type timeout cb).1 = .OK → j.val = id →
        ((flexitimer_start timers id type timeout cb).2 j).callback = cb) ∧
      (((flexitimer_start timers id type timeout cb).2 j).callback = none ↔
        ((flexitimer_start timers id type timeout cb).1 = .OK ∧ j.val = id ∧ cb = none))) ∧
    (∀ (σ : Type) (cbs : Callbacks σ) (u : σ) (log : List (Nat × Nat)),
      KeepsCallbacks cbs →
        ((flexitimer_handler cbs ⟨timers, u, log⟩).timers j).callback ≠ none) ∧
    ((flexitimer_cancel timers j.val).2 j).callback = none := by
  refine ⟨fun id extra => ?_, fun id => ?_, fun id => ?_, fun id => ?_,
    fun id type timeout cb => ⟨fun hne => ?_, fun hok hv => ?_, fun hok hv => ?_, ?_⟩,
    fun σ cbs u log hk => ?_, ?_⟩
  · rw [(api_keeps_callback_field timers j id extra).1]; exact hreg
  · rw [(api_keeps_callback_field timers j id 0).2.1]; exact hreg
  · rw [(api_keeps_callback_field timers j id 0).2.2.1]; exact hreg
  · rw [(api_keeps_callback_field timers j id 0).2.2.2]; exact hreg
  · by_cases hge : id ≥ FLEXITIMER_MAX_TIMERS
    · simp [flexitimer_start, hge]
    · by_cases hz : type = .PERIODIC ∧ timeout = 0
      · simp [flexitimer_start, hge, hz]
      · exact absurd (by simp [flexitimer_start, hge, hz]) hne
  · rw [start_callback_field]
    simp [hv]
  · rw [start_callback_field]
    simp [hok, hv]
  · rw [start_callback_field]
    by_cases hc : (flexitimer_start timers id type timeout cb).1 = .OK ∧ j.val = id
    · simp [hc]
    · simp only [hc, if_false]
      constructor
      · intro h
        exact absurd h hreg
      · intro h
        exact absurd ⟨h.1, h.2.1⟩ hc
  · exact handler_keeps_callback cbs hk ⟨timers, u, log⟩ j hreg
  · have hge : ¬ j.val ≥ FLEXITIMER_MAX_TIMERS := by
      have := j.isLt
      omega
    simp [flexitimer_cancel, hge]

/-- Witness for C20 (amended): slot 0 of the test `CallbackInvokedSingleShot` keeps its
callback through `delay(0, 2)` and through the handler pass in which it expires. -/
theorem C20_callback_kept_unless_cancel_or_null_start_witness :
    ((flexitimer_start (flexitimer_init zero_table) 0 .SINGLESHOT 1 (some 7)).2 0).callback
      ≠ none ∧
    KeepsCallbacks idle_callbacks ∧
    ((flexitimer_delay
      (flexitimer_start (flexitimer_init zero_table) 0 .SINGLESHOT 1 (some 7)).2 0 2).2
      0).callback ≠ none ∧
    ((flexitimer_handler idle_callbacks
      ⟨(flexitimer_start (flexitimer_init zero_table) 0 .SINGLESHOT 1 (some 7)).2, (), []⟩
      ).timers 0).callback ≠ none :=
  ⟨by decide, fun _ _ _ _ _ h => h,
   (C20_callback_kept_unless_cancel_or_null_start
      (flexitimer_start (flexitimer_init zero_table) 0 .SINGLESHOT 1 (some 7)).2 0
      (by decide)).1 0 2,
   (C20_callback_kept_unless_cancel_or_null_start
      (flexitimer_start (flexitimer_init zero_table) 0 .SINGLESHOT 1 (some 7)).2 0
      (by decide)).2.2.2.2.2.1 Unit idle_callbacks () [] (fun _ _ _ _ _ h => h)⟩

theorem init_slot (t : Table) (j : Fin FLEXITIMER_MAX_TIMERS) :
    (flexitimer_init t) j
      = { t j with state := .PASSIVE, remaining := 0, callback := none } := by
  have h := cancel_range t FLEXITIMER_MAX_TIMERS j
  have hj : j.val < FLEXITIMER_MAX_TIMERS := j.isLt
  simp only [hj, if_true] at h
  simp only [flexitimer_init, h]

/-- What one API call can make of a slot: leave it, clear it (`cancel`, `init`), write a
fresh configuration that is not (Periodic, 0) (`start`), add to the countdown of a slot
that is not Passive (`delay`), pause an Active slot, resume a Paused slot, or restart a slot
that is not Passive. -/
theorem api_call_slot (t : Table) (c : api_call) (j : Fin FLEXITIMER_MAX_TIMERS) :
    (api_call.run t c) j = t j ∨
    (api_call.run t c) j
      = { t j with state := .PASSIVE, remaining := 0, callback := none } ∨
    (∃ type timeout cb, ¬ (type = timer_type_t.PERIODIC ∧ timeout = 0) ∧
      (api_call.run t c) j = ⟨timeout, timeout, type, .ACTIVE, cb⟩) ∨
    (∃ extra, (t j).state ≠ .PASSIVE ∧
      (api_call.run t c) j
        = { t j with remaining := ((t j).remaining + extra) % TIMER_TIME_MOD }) ∨
    ((t j).state = .ACTIVE ∧ (api_call.run t c) j = { t j with state := .PAUSED }) ∨
    ((t j).state = .PAUSED ∧ (api_call.run t c) j = { t j with state := .ACTIVE }) ∨
    ((t j).state ≠ .PASSIVE ∧
      (api_call.run t c) j = { t j with remaining := (t j).timeout, state := .ACTIVE }) := by
  cases c with
  | init => exact Or.inr (Or.inl (init_slot t j))
  | start id type timeout cb =>
    by_cases hge : id ≥ FLEXITIMER_MAX_TIMERS
    · left; simp [api_call.run, flexitimer_start, hge]
    · have hlt : id < FLEXITIMER_MAX_TIMERS := by omega
      by_cases hz : type = .PERIODIC ∧ timeout = 0
      · left; simp [api_call.run, flexitimer_start, hge, hz]
      · by_cases hij : j = ⟨id, hlt⟩
        · subst hij
          right; right; left
          exact ⟨type, timeout, cb, hz, by simp [api_call.run, flexitimer_start, hge, hz]⟩
        · left; simp [api_call.run, flexitimer_start, hge, hz, hij]
  | delay id extra =>
    by_cases hge : id ≥ FLEXITIMER_MAX_TIMERS
    · left; simp [api_call.run, flexitimer_delay, hge]
    · have hlt : id < FLEXITIMER_MAX_TIMERS := by omega
      by_cases hs : (t ⟨id, hlt⟩).state = .PASSIVE
      · left; simp [api_call.run, flexitimer_delay, hge, hs]
      · by_cases hij : j = ⟨id, hlt⟩
        · subst hij
          right; right; right; left
          exact ⟨extra, hs, by simp [api_call.run, flexitimer_delay, hge, hs]⟩
        · left; simp [api_call.run, flexitimer_delay, hge, hs, hij]
  | pause id =>
    by_cases hge : id ≥ FLEXITIMER_MAX_TIMERS
    · left; simp [api_call.run, flexitimer_pause, hge]
    · have hlt : id < FLEXITIMER_MAX_TIMERS := by omega
      by_cases hs : (t ⟨id, hlt⟩).state = .ACTIVE
      · by_cases hij : j = ⟨id, hlt⟩
        · subst hij
          right; right; right; right; left
          exact ⟨hs, by simp [api_call.run, flexitimer_pause, hge, hs]⟩
        · left; simp [api_call.run, flexitimer_pause, hge, hs, hij]
      · left; simp [api_call.run, flexitimer_pause, hge, hs]
  | resume id =>
    by_cases hge : id ≥ FLEXITIMER_MAX_TIMERS
    · left; simp [api_call.run, flexitimer_resume, hge]
    · have hlt : id < FLEXITIMER_MAX_TIMERS := by omega
      by_cases hs : (t ⟨id, hlt⟩).state = .PAUSED
      · by_cases hij : j = ⟨id, hlt⟩
        · subst hij
          right; right; right; right; right; left
          exact ⟨hs, by simp [api_call.run, flexitimer_resume, hge, hs]⟩
        · left; simp [api_call.run, flexitimer_resume, hge, hs, hij]
      · left; simp [api_call.run, flexitimer_resume, hge, hs]
  | restart id =>
    by_cases hge : id ≥ FLEXITIMER_MAX_TIMERS
    · left; simp [api_call.run, flexitimer_restart, hge]
    · have hlt : id < FLEXITIMER_MAX_TIMERS := by omega
      by_cases hs : (t ⟨id, hlt⟩).state = .PASSIVE
      · left; simp [api_call.run, flexitimer_restart, hge, hs]
      · by_cases hij : j = ⟨id, hlt⟩
        · subst hij
          right; right; right; right; right; right
          exact ⟨hs, by simp [api_call.run, flexitimer_restart, hge, hs]⟩
        · left; simp [api_call.run, flexitimer_restart, hge, hs, hij]
  | cancel id =>
    by_cases hge : id ≥ FLEXITIMER_MAX_TIMERS
    · left; simp [api_call.run, flexitimer_cancel, hge]
    · have hlt : id < FLEXITIMER_MAX_TIMERS := by omega
      by_cases hij : j = ⟨id, hlt⟩
      · subst hij
        right; left
        simp [api_call.run, flexitimer_cancel, hge]
      · left; simp [api_call.run, flexitimer_cancel, hge, hij]

theorem run_calls_slots (Q : timer_t → Prop)
    (hcall : ∀ (t : Table) (c : api_call), (∀ j, Q (t j)) → ∀ j, Q ((api_call.run t c) j))
    (l : List api_call) (t : Table) (h : ∀ j, Q (t j)) : ∀ j, Q ((run_calls t l) j) := by
  induction l generalizing t with
  | nil => exact h
  | cons c l ih =>
    have h' := ih (api_call.run t c) (hcall t c h)
    simpa [run_calls] using h'

theorem handler_slot_slots {σ : Type} (Q : timer_t → Prop)
    (hcall : ∀ (t : Table) (c : api_call), (∀ j, Q (t j)) → ∀ j, Q ((api_call.run t c) j))
    (htick : ∀ s, Q s → Q (tick s)) (cbs : Callbacks σ) (hb : ApiBodies cbs)
    (w : World σ) (i : Fin FLEXITIMER_MAX_TIMERS) (h : ∀ j, Q (w.timers j)) :
    ∀ j, Q ((handler_slot cbs w i).timers j) := by
  have hupd : ∀ j, Q ((Function.update w.timers i (tick (w.timers i))) j) := by
    intro j
    by_cases hji : j = i
    · subst hji
      rw [Function.update_same]
      exact htick _ (h j)
    · rw [Function.update_noteq hji]
      exact h j
  rcases handler_slot_shape cbs w i with hsh | ⟨f, _, hsh⟩
  · rw [hsh]
    exact hupd
  · obtain ⟨l, hl⟩ := hb f i.val (Function.update w.timers i (tick (w.timers i))) w.user
    rw [hsh, hl]
    exact run_calls_slots Q hcall l _ hupd

/-- A property of single slots that holds of the zero-initialised slot and is kept by
every API call and by the handler's own write to a slot holds of every slot of every
reachable table. -/
theorem reachable_slots (Q : timer_t → Prop) (hzero : ∀ j, Q (zero_table j))
    (hcall : ∀ (t : Table) (c : api_call), (∀ j, Q (t j)) → ∀ j, Q ((api_call.run t c) j))
    (htick : ∀ s, Q s → Q (tick s)) (t : Table) (hr : Reachable t) : ∀ j, Q (t j) := by
  induction hr with
  | zero => exact hzero
  | call c _ ih => exact hcall _ c ih
  | pass cbs u log hb _ ih =>
    have hfold : ∀ (l : List (Fin FLEXITIMER_MAX_TIMERS)) (w : World _),
        (∀ j, Q (w.timers j)) → ∀ j, Q ((l.foldl (handler_slot cbs) w).timers j) := by
      intro l
      induction l with
      | nil => intro w hw; exact hw
      | cons a l ihl =>
        intro w hw
        rw [List.foldl_cons]
        exact ihl _ (handler_slot_slots Q hcall htick cbs hb w a hw)
    unfold flexitimer_handler
    exact hfold _ _ ih

theorem tick_config (s : timer_t) :
    (tick s).timeout = s.timeout ∧ (tick s).type = s.type := by
  unfold tick
  split_ifs <;> exact ⟨rfl, rfl⟩

/-- The loop body logs at most one invocation, made with the id of the slot it handles. -/
theorem handler_slot_calls {σ : Type} (cbs : Callbacks σ) (w : World σ)
    (m : Fin FLEXITIMER_MAX_TIMERS) :
    (handler_slot cbs w m).calls = w.calls ∨
    ∃ f, (handler_slot cbs w m).calls = w.calls ++ [(f, m.val)] := by
  by_cases hs : (w.timers m).state = .ACTIVE
  · rcases Nat.lt_or_ge 1 (w.timers m).remaining with hr | hr
    · have h0 : 0 < (w.timers m).remaining := by omega
      have h2 : ¬ (w.timers m).remaining - 1 = 0 := by omega
      left
      simp [handler_slot, hs, h0, h2]
    · cases hc : (w.timers m).callback with
      | none =>
        left
        have h := (handler_slot_quiet cbs w m (fun c hcc => by rw [hc] at hcc; cases hcc)).2
        simpa [fired, hc] using h
      | some f =>
        right
        exact ⟨f, (handler_slot_fire cbs w m f hs hr hc).2⟩
  · left
    simp [handler_slot, hs]

/-- Over a stretch of the scan, whatever the callback bodies do, at most one invocation is
made with a given id, and none if the stretch does not contain that slot. -/
theorem handler_fold_calls_le {σ : Type} (cbs : Callbacks σ)
    (l : List (Fin FLEXITIMER_MAX_TIMERS)) (hl : l.Nodup) (w : World σ)
    (i : Fin FLEXITIMER_MAX_TIMERS) :
    ∃ d : List (Nat × Nat),
      calls_of i.val (l.foldl (handler_slot cbs) w).calls = calls_of i.val w.calls ++ d ∧
      d.length ≤ (if i ∈ l then 1 else 0) := by
  induction l generalizing w with
  | nil => exact ⟨[], by simp, by simp⟩
  | cons a l ih =>
    have hnd := List.nodup_cons.mp hl
    obtain ⟨d, hd1, hd2⟩ := ih hnd.2 (handler_slot cbs w a)
    rw [List.foldl_cons, hd1]
    by_cases hai : a = i
    · subst hai
      simp only [hnd.1, if_false, Nat.le_zero, List.length_eq_zero] at hd2
      subst hd2
      rcases handler_slot_calls cbs w a with h | ⟨f, h⟩
      · exact ⟨[], by rw [h], by simp⟩
      · exact ⟨[(f, a.val)], by simp [h, calls_of], by simp⟩
    · have hv : ¬ a.val = i.val := fun h => hai (Fin.ext h)
      have hia : ¬ i = a := fun h => hai h.symm
      refine ⟨d, ?_, by simpa [hia] using hd2⟩
      rcases handler_slot_calls cbs w a with h | ⟨f, h⟩
      · rw [h]
      · simp [h, calls_of, hv]

theorem passive_zero_call (t : Table) (c : api_call)
    (h : ∀ j, (t j).state = .PASSIVE → (t j).remaining = 0) :
    ∀ j, ((api_call.run t c) j).state = .PASSIVE → ((api_call.run t c) j).remaining = 0 := by
  intro j
  rcases api_call_slot t c j with h1 | h1 | ⟨type, timeout, cb, hz, h1⟩ | ⟨extra, hs, h1⟩ |
    ⟨_, h1⟩ | ⟨_, h1⟩ | ⟨_, h1⟩
  · rw [h1]; exact h j
  · rw [h1]; intro _; rfl
  · rw [h1]; intro hp; cases hp
  · rw [h1]; intro hp; exact absurd hp hs
  · rw [h1]; intro hp; cases hp
  · rw [h1]; intro hp; cases hp
  · rw [h1]; intro hp; cases hp

theorem passive_zero_tick (s : timer_t) (h : s.state = .PASSIVE → s.remaining = 0) :
    (tick s).state = .PASSIVE → (tick s).remaining = 0 := by
  unfold tick
  split_ifs with h1 h2 h3
  · intro hp; rw [h1] at hp; cases hp
  · intro _; rfl
  · intro hp; rw [h1] at hp; cases hp
  · exact h

theorem idle_api_bodies : ApiBodies idle_callbacks := fun _ _ _ _ => ⟨[], rfl⟩

/-- The functions `delay`, `pause`, `resume`, `restart`, `cancel` and `init` never write
the timeout or the kind: with any id and argument, successful or not, every slot has the
timeout and kind it had. -/
theorem api_keeps_config (t : Table) (j : Fin FLEXITIMER_MAX_TIMERS) (id extra : Nat) :
    (((flexitimer_delay t id extra).2 j).timeout = (t j).timeout ∧
      ((flexitimer_delay t id extra).2 j).type = (t j).type) ∧
    (((flexitimer_pause t id).2 j).timeout = (t j).timeout ∧
      ((flexitimer_pause t id).2 j).type = (t j).type) ∧
    (((flexitimer_resume t id).2 j).timeout = (t j).timeout ∧
      ((flexitimer_resume t id).2 j).type = (t j).type) ∧
    (((flexitimer_restart t id).2 j).timeout = (t j).timeout ∧
      ((flexitimer_restart t id).2 j).type = (t j).type) ∧
    (((flexitimer_cancel t id).2 j).timeout = (t j).timeout ∧
      ((flexitimer_cancel t id).2 j).type = (t j).type) ∧
    (((flexitimer_init t) j).timeout = (t j).timeout ∧
      ((flexitimer_init t) j).type = (t j).type) := by
  have hinit : ((flexitimer_init t) j).timeout = (t j).timeout ∧
      ((flexitimer_init t) j).type = (t j).type := by
    rw [init_slot]
    exact ⟨rfl, rfl⟩
  by_cases hge : id ≥ FLEXITIMER_MAX_TIMERS
  · simp [flexitimer_delay, flexitimer_pause, flexitimer_resume, flexitimer_restart,
      flexitimer_cancel, hge, hinit]
  · have hlt : id < FLEXITIMER_MAX_TIMERS := by omega
    by_cases hij : j = ⟨id, hlt⟩
    · subst hij
      refine ⟨?_, ?_, ?_, ?_, ?_, hinit⟩
      · by_cases h : (t ⟨id, hlt⟩).state = .PASSIVE <;> simp [flexitimer_delay, hge, h]
      · by_cases h : (t ⟨id, hlt⟩).state = .ACTIVE <;> simp [flexitimer_pause, hge, h]
      · by_cases h : (t ⟨id, hlt⟩).state = .PAUSED <;> simp [flexitimer_resume, hge, h]
      · by_cases h : (t ⟨id, hlt⟩).state = .PASSIVE <;> simp [flexitimer_restart, hge, h]
      · simp [flexitimer_cancel, hge]
    · refine ⟨?_, ?_, ?_, ?_, ?_, hinit⟩
      · by_cases h : (t ⟨id, hlt⟩).state = .PASSIVE <;>
          simp [flexitimer_delay, hge, hij, h]
      · by_cases h : (t ⟨id, hlt⟩).state = .ACTIVE <;>
          simp [flexitimer_pause, hge, hij, h]
      · by_cases h : (t ⟨id, hlt⟩).state = .PAUSED <;>
          simp [flexitimer_resume, hge, hij, h]
      · by_cases h : (t ⟨id, hlt⟩).state = .PASSIVE <;>
          simp [flexitimer_restart, hge, hij, h]
      · simp [flexitimer_cancel, hge, hij]

theorem api_call_keeps_config (t : Table) (c : api_call) (hc : api_call.is_start c = false)
    (j : Fin FLEXITIMER_MAX_TIMERS) :
    ((api_call.run t c) j).timeout = (t j).timeout ∧
    ((api_call.run t c) j).type = (t j).type := by
  cases c with
  | init => exact (api_keeps_config t j 0 0).2.2.2.2.2
  | start id type timeout cb => simp [api_call.is_start] at hc
  | delay id extra => exact (api_keeps_config t j id extra).1
  | pause id => exact (api_keeps_config t j id 0).2.1
  | resume id => exact (api_keeps_config t j id 0).2.2.1
  | restart id => exact (api_keeps_config t j id 0).2.2.2.1
  | cancel id => exact (api_keeps_config t j id 0).2.2.2.2.1

theorem run_calls_keeps_config (l : List api_call) (hl : ∀ x ∈ l, api_call.is_start x = false)
    (t : Table) (j : Fin FLEXITIMER_MAX_TIMERS) :
    ((run_calls t l) j).timeout = (t j).timeout ∧ ((run_calls t l) j).type = (t j).type := by
  induction l generalizing t with
  | nil => exact ⟨rfl, rfl⟩
  | cons c l ih =>
    have h1 := api_call_keeps_config t c (hl c (List.mem_cons_self c l)) j
    have h2 := ih (fun x hx => hl x (List.mem_cons_of_mem c hx)) (api_call.run t c)
    have hrun : run_calls t (c :: l) = run_calls (api_call.run t c) l := rfl
    rw [hrun, h2.1, h2.2]
    exact h1

/-- A handler pass with callback bodies that never call `start` writes no timeout and no
kind. -/
theorem handler_keeps_config {σ : Type} (cbs : Callbacks σ) (hb : NoStartBodies cbs)
    (w : World σ) (j : Fin FLEXITIMER_MAX_TIMERS) :
    ((flexitimer_handler cbs w).timers j).timeout = (w.timers j).timeout ∧
    ((flexitimer_handler cbs w).timers j).type = (w.timers j).type := by
  have hslot : ∀ (w : World σ) (i : Fin FLEXITIMER_MAX_TIMERS),
      ((handler_slot cbs w i).timers j).timeout = (w.timers j).timeout ∧
      ((handler_slot cbs w i).timers j).type = (w.timers j).type := by
    intro w i
    have hupd : ((Function.update w.timers i (tick (w.timers i))) j).timeout
          = (w.timers j).timeout ∧
        ((Function.update w.timers i (tick (w.timers i))) j).type = (w.timers j).type := by
      by_cases hji : j = i
      · subst hji
        rw [Function.update_same]
        exact tick_config _
      · rw [Function.update_noteq hji]
        exact ⟨rfl, rfl⟩
    rcases handler_slot_shape cbs w i with hsh | ⟨f, _, hsh⟩
    · rw [hsh]
      exact hupd
    · obtain ⟨l, hl, hrun⟩ :=
        hb f i.val (Function.update w.timers i (tick (w.timers i))) w.user
      have h := run_calls_keeps_config l hl
        (Function.update w.timers i (tick (w.timers i))) j
      rw [hsh, hrun, h.1, h.2]
      exact hupd
  have hfold : ∀ (l : List (Fin FLEXITIMER_MAX_TIMERS)) (w : World σ),
      ((l.foldl (handler_slot cbs) w).timers j).timeout = (w.timers j).timeout ∧
      ((l.foldl (handler_slot cbs) w).timers j).type = (w.timers j).type := by
    intro l
    induction l with
    | nil => intro w; exact ⟨rfl, rfl⟩
    | cons a l ih =>
      intro w
      rw [List.foldl_cons, (ih _).1, (ih _).2]
      exact hslot w a
  unfold flexitimer_handler
  exact hfold _ w

theorem idle_no_start_bodies : NoStartBodies idle_callbacks :=
  fun _ _ _ _ => ⟨[], by simp, rfl⟩

/-- C22: the configured timeout and the kind of a slot are changed only by a successful
`start`.  For every table and every slot, `delay`, `pause`, `resume`, `restart`, `cancel`
(with any id, successful or not), `init`, a failing `start`, and a handler pass with
callback bodies that never call `start` leave the slot's timeout and kind as they were (the
queries do not write the table); in particular after `start(id, kind, t, cb)` followed by
`delay(id, extra)`, `get_time(id)` still yields `t`. -/
theorem C22_config_changed_only_by_start (timers : Table) (j : Fin FLEXITIMER_MAX_TIMERS) :
    (∀ id extra : Nat,
      ((flexitimer_delay timers id extra).2 j).timeout = (timers j).timeout ∧
      ((flexitimer_delay timers id extra).2 j).type = (timers j).type) ∧
    (∀ id : Nat,
      ((flexitimer_pause timers id).2 j).timeout = (timers j).timeout ∧
      ((flexitimer_pause timers id).2 j).type = (timers j).type) ∧
    (∀ id : Nat,
      ((flexitimer_resume timers id).2 j).timeout = (timers j).timeout ∧
      ((flexitimer_resume timers id).2 j).type = (timers j).type) ∧
    (∀ id : Nat,
      ((flexitimer_restart timers id).2 j).timeout = (timers j).timeout ∧
      ((flexitimer_restart timers id).2 j).type = (timers j).type) ∧
    (∀ id : Nat,
      ((flexitimer_cancel timers id).2 j).timeout = (timers j).timeout ∧
      ((flexitimer_cancel timers id).2 j).type = (timers j).type) ∧
    (((flexitimer_init timers) j).timeout = (timers j).timeout ∧
      ((flexitimer_init timers) j).type = (timers j).type) ∧
    (∀ (id : Nat) (type : timer_type_t) (timeout : Nat) (cb : Option Nat),
      (flexitimer_start timers id type timeout cb).1 ≠ .OK →
        (flexitimer_start timers id type timeout cb).2 = timers) ∧
    (∀ (σ : Type) (cbs : Callbacks σ) (u : σ) (log : List (Nat × Nat)),
      NoStartBodies cbs →
        ((flexitimer_handler cbs ⟨timers, u, log⟩).timers j).timeout = (timers j).timeout ∧
        ((flexitimer_handler cbs ⟨timers, u, log⟩).timers j).type = (timers j).type) ∧
    (∀ (id : Nat) (kind : timer_type_t) (t : Nat) (cb : Option Nat) (extra old : Nat),
      id < FLEXITIMER_MAX_TIMERS → ¬ (kind = .PERIODIC ∧ t = 0) →
        flexitimer_get_time
          (flexitimer_delay (flexitimer_start timers id kind t cb).2 id extra).2 id (some old)
          = (.OK, some t)) := by
  refine ⟨fun id extra => (api_keeps_config timers j id extra).1,
    fun id => (api_keeps_config timers j id 0).2.1,
    fun id => (api_keeps_config timers j id 0).2.2.1,
    fun id => (api_keeps_config timers j id 0).2.2.2.1,
    fun id => (api_keeps_config timers j id 0).2.2.2.2.1,
    (api_keeps_config timers j 0 0).2.2.2.2.2,
    fun id type timeout cb hne => ?_,
    fun σ cbs u log hb => handler_keeps_config cbs hb ⟨timers, u, log⟩ j,
    fun id kind t cb extra old hid hz => ?_⟩
  · by_cases hge : id ≥ FLEXITIMER_MAX_TIMERS
    · simp [flexitimer_start, hge]
    · by_cases hz : type = .PERIODIC ∧ timeout = 0
      · simp [flexitimer_start, hge, hz]
      · exact absurd (by simp [flexitimer_start, hge, hz]) hne
  · have hge : ¬ id ≥ FLEXITIMER_MAX_TIMERS := by omega
    have hcfg := (api_keeps_config (flexitimer_start timers id kind t cb).2 ⟨id, hid⟩
      id extra).1.1
    have hst : ((flexitimer_start timers id kind t cb).2 ⟨id, hid⟩).timeout = t := by
      simp [flexitimer_start, hge, hz]
    simp only [flexitimer_get_time, hge, dite_false, hcfg, hst]
    simp

/-- Witness for C22: `start(0, SINGLESHOT, 3, NULL)`, `delay(0, 2)` as in the test
`DelayActiveTimer`, then `get_time(0)` yields 3; and a handler pass keeps the timeout. -/
theorem C22_config_changed_only_by_start_witness :
    NoStartBodies idle_callbacks ∧ 0 < FLEXITIMER_MAX_TIMERS ∧
    ¬ (timer_type_t.SINGLESHOT = .PERIODIC ∧ 3 = 0) ∧
    flexitimer_get_time
      (flexitimer_delay (flexitimer_start (flexitimer_init zero_table) 0 .SINGLESHOT 3 none).2
        0 2).2 0 (some 0) = (.OK, some 3) ∧
    ((flexitimer_handler idle_callbacks
      ⟨(flexitimer_start (flexitimer_init zero_table) 0 .SINGLESHOT 3 none).2, (), []⟩).timers
        0).timeout = 3 :=
  ⟨idle_no_start_bodies, by decide, by decide,
   (C22_config_changed_only_by_start (flexitimer_init zero_table) 0).2.2.2.2.2.2.2.2
      0 .SINGLESHOT 3 none 2 0 (by decide) (by decide),
   ((C22_config_changed_only_by_start
      (flexitimer_start (flexitimer_init zero_table) 0 .SINGLESHOT 3 none).2 0).2.2.2.2.2.2.2.1
      Unit idle_callbacks () [] idle_no_start_bodies).1.trans (by decide)⟩

/-- C23: in every table reachable from the zero-initialised table by any sequence of
`init`, `start`, `delay`, `pause`, `resume`, `restart`, `cancel` and handler passes
(callback bodies acting through the API only), every slot whose state is Passive has
`remaining = 0`. -/
theorem C23_passive_has_zero_remaining (t : Table) (hr : Reachable t)
    (j : Fin FLEXITIMER_MAX_TIMERS) (hp : (t j).state = .PASSIVE) :
    (t j).remaining = 0 :=
  reachable_slots (fun s => s.state = .PASSIVE → s.remaining = 0)
    (fun _ _ => rfl) passive_zero_call passive_zero_tick t hr j hp

/-- Witness for C23: the table of the test `CallbackInvokedSingleShot` after the expiry
(`init`, `start(0, SINGLESHOT, 1, cb)`, one handler pass). -/
theorem C23_passive_has_zero_remaining_witness :
    Reachable expired_oneshot.timers ∧
    (expired_oneshot.timers 0).state = .PASSIVE ∧
    (expired_oneshot.timers 0).remaining = 0 :=
  ⟨Reachable.pass idle_callbacks () [] idle_api_bodies
      (Reachable.call (.start 0 .SINGLESHOT 1 (some 7)) (Reachable.call .init Reachable.zero)),
   by decide,
   C23_passive_has_zero_remaining expired_oneshot.timers
      (Reachable.pass idle_callbacks () [] idle_api_bodies
        (Reachable.call (.start 0 .SINGLESHOT 1 (some 7))
          (Reachable.call .init Reachable.zero)))
      0 (by decide)⟩

/-- C24: `delay` adds in 32-bit unsigned arithmetic.  For a valid id and a slot that is not
Passive, `delay(id, extra)` returns Ok and sets `remaining` to
`(remaining + extra) mod 2^32`, leaving the other fields alone.  Therefore some `extra > 0`
shortens the countdown of some Active slot: after `start(0, One-shot, 2^32 - 1, cb)` the
call `delay(0, 1)` returns Ok and leaves `remaining = 0`, and the next handler pass fires
the timer at once and leaves it Passive, whereas without the `delay` that pass fires
nothing and leaves `2^32 - 2` ticks. -/
theorem C24_delay_wraps_around (timers : Table) (id : Nat)
    (hid : id < FLEXITIMER_MAX_TIMERS) (extra : Nat)
    (hs : (timers ⟨id, hid⟩).state ≠ .PASSIVE) :
    (flexitimer_delay timers id extra).1 = .OK ∧
    (flexitimer_delay timers id extra).2 ⟨id, hid⟩
      = { timers ⟨id, hid⟩ with
          remaining := ((timers ⟨id, hid⟩).remaining + extra) % 2 ^ 32 } ∧
    (∃ (tbl : Table) (i : Fin FLEXITIMER_MAX_TIMERS) (e : Nat),
      0 < e ∧ (tbl i).state = .ACTIVE ∧ (flexitimer_delay tbl i.val e).1 = .OK ∧
      ((flexitimer_delay tbl i.val e).2 i).remaining < (tbl i).remaining) ∧
    ((flexitimer_start (flexitimer_init zero_table) 0 .SINGLESHOT (2 ^ 32 - 1) (some 7)).2
      0).remaining = 2 ^ 32 - 1 ∧
    (flexitimer_delay
      (flexitimer_start (flexitimer_init zero_table) 0 .SINGLESHOT (2 ^ 32 - 1) (some 7)).2
      0 1).1 = .OK ∧
    ((flexitimer_delay
      (flexitimer_start (flexitimer_init zero_table) 0 .SINGLESHOT (2 ^ 32 - 1) (some 7)).2
      0 1).2 0).remaining = 0 ∧
    (flexitimer_handler idle_callbacks (fresh_world (flexitimer_delay
      (flexitimer_start (flexitimer_init zero_table) 0 .SINGLESHOT (2 ^ 32 - 1) (some 7)).2
      0 1).2)).calls = [(7, 0)] ∧
    ((flexitimer_handler idle_callbacks (fresh_world (flexitimer_delay
      (flexitimer_start (flexitimer_init zero_table) 0 .SINGLESHOT (2 ^ 32 - 1) (some 7)).2
      0 1).2)).timers 0).state = .PASSIVE ∧
    (flexitimer_handler idle_callbacks (fresh_world
      (flexitimer_start (flexitimer_init zero_table) 0 .SINGLESHOT (2 ^ 32 - 1)
        (some 7)).2)).calls = [] ∧
    ((flexitimer_handler idle_callbacks (fresh_world
      (flexitimer_start (flexitimer_init zero_table) 0 .SINGLESHOT (2 ^ 32 - 1)
        (some 7)).2)).timers 0).remaining = 2 ^ 32 - 2 := by
  have hge : ¬ id ≥ FLEXITIMER_MAX_TIMERS := by omega
  refine ⟨?_, ?_, ?_, by decide, by decide, by decide, by decide, by decide, by decide,
    by decide⟩
  · simp [flexitimer_delay, hge, hs]
  · simp only [flexitimer_delay, hge, dite_false, ne_eq, hs, not_false_eq_true, if_true,
      Function.update_same]
  · exact ⟨(flexitimer_start (flexitimer_init zero_table) 0 .SINGLESHOT (2 ^ 32 - 1)
      (some 7)).2, 0, 1, by decide, by decide, by decide, by decide⟩

/-- Witness for C24: a Paused slot with `2^32 - 3` ticks left, delayed by 5, is left with
2 ticks. -/
theorem C24_delay_wraps_around_witness :
    4 < FLEXITIMER_MAX_TIMERS ∧
    (flexitimer_delay (fun _ => ⟨9, 2 ^ 32 - 3, .PERIODIC, .PAUSED, some 7⟩) 4 5).1 = .OK ∧
    (flexitimer_delay (fun _ => ⟨9, 2 ^ 32 - 3, .PERIODIC, .PAUSED, some 7⟩) 4 5).2 4
      = ⟨9, 2, .PERIODIC, .PAUSED, some 7⟩ :=
  ⟨by decide,
   (C24_delay_wraps_around (fun _ => ⟨9, 2 ^ 32 - 3, .PERIODIC, .PAUSED, some 7⟩) 4
      (by decide) 5 (by decide)).1,
   (C24_delay_wraps_around (fun _ => ⟨9, 2 ^ 32 - 3, .PERIODIC, .PAUSED, some 7⟩) 4
      (by decide) 5 (by decide)).2.1.trans (by decide)⟩

/-- The loop body, with its log: the invocations it logs are `fired` of the slot it
handles; when nothing fires the table is only advanced by `tick`, and when the slot fires
the body of its callback runs on the table in which the expiry has been recorded. -/
theorem handler_slot_cases {σ : Type} (cbs : Callbacks σ) (w : World σ)
    (a : Fin FLEXITIMER_MAX_TIMERS) :
    (handler_slot cbs w a).calls = w.calls ++ fired (w.timers a) a.val ∧
    ((fired (w.timers a) a.val = [] ∧
        (handler_slot cbs w a).timers = Function.update w.timers a (tick (w.timers a))) ∨
      ∃ f, fired (w.timers a) a.val = [(f, a.val)] ∧
        (handler_slot cbs w a).timers
          = (cbs f a.val (Function.update w.timers a (tick (w.timers a))) w.user).1) := by
  by_cases hs : (w.timers a).state = .ACTIVE
  · rcases Nat.lt_or_ge 1 (w.timers a).remaining with hr | hr
    · have h0 : 0 < (w.timers a).remaining := by omega
      have h1 : ¬ (w.timers a).remaining ≤ 1 := by omega
      have h2 : ¬ (w.timers a).remaining - 1 = 0 := by omega
      refine ⟨by simp [handler_slot, fired, hs, h0, h1, h2], Or.inl ⟨by simp [fired, h1], ?_⟩⟩
      simp [handler_slot, tick, hs, h0, h1, h2]
    · cases hc : (w.timers a).callback with
      | none =>
        obtain ⟨hT, hC⟩ :=
          handler_slot_quiet cbs w a (fun c hcc => by rw [hc] at hcc; cases hcc)
        exact ⟨hC, Or.inl ⟨by simp [fired, hc], hT⟩⟩
      | some f =>
        obtain ⟨hT, hC⟩ := handler_slot_fire cbs w a f hs hr hc
        have hf : fired (w.timers a) a.val = [(f, a.val)] := by simp [fired, hs, hr, hc]
        exact ⟨by rw [hC, hf], Or.inr ⟨f, hf, hT⟩⟩
  · refine ⟨by simp [handler_slot, fired, hs], Or.inl ⟨by simp [fired, hs], ?_⟩⟩
    simp [handler_slot, tick, hs]

/-- The log only grows along the scan. -/
theorem handler_fold_grows {σ : Type} (cbs : Callbacks σ)
    (l : List (Fin FLEXITIMER_MAX_TIMERS)) (w : World σ) :
    ∃ d : List (Nat × Nat), (l.foldl (handler_slot cbs) w).calls = w.calls ++ d := by
  induction l generalizing w with
  | nil => exact ⟨[], by simp⟩
  | cons a l ih =>
    obtain ⟨d, hd⟩ := ih (handler_slot cbs w a)
    rw [List.foldl_cons, hd, (handler_slot_cases cbs w a).1, List.append_assoc]
    exact ⟨_, rfl⟩

/-- A stretch of the scan that does not contain slot `i` logs no invocation with id `i`. -/
theorem handler_fold_other_ids {σ : Type} (cbs : Callbacks σ)
    (l : List (Fin FLEXITIMER_MAX_TIMERS)) (hl : l.Nodup) (w : World σ)
    (i : Fin FLEXITIMER_MAX_TIMERS) (hi : i ∉ l) (d : List (Nat × Nat))
    (hd : (l.foldl (handler_slot cbs) w).calls = w.calls ++ d) (c : Nat) :
    (c, i.val) ∉ d := by
  obtain ⟨d', hd1, hd2⟩ := handler_fold_calls_le cbs l hl w i
  rw [hd, calls_of_append] at hd1
  have heq : calls_of i.val d = d' := List.append_cancel_left hd1
  simp only [hi, if_false, Nat.le_zero, List.length_eq_zero] at hd2
  rw [hd2] at heq
  intro hmem
  have : (c, i.val) ∈ calls_of i.val d := by
    simp [calls_of, hmem]
  rw [heq] at this
  cases this

/-- A stretch of the scan in which every invocation actually made leaves slot `j` alone:
slot `j` is advanced by `tick` if it lies in the stretch and is unchanged otherwise, and
the invocations logged for it are its `fired`. -/
theorem handler_fold_logged {σ : Type} (cbs : Callbacks σ) (j : Fin FLEXITIMER_MAX_TIMERS)
    (l : List (Fin FLEXITIMER_MAX_TIMERS)) (hl : l.Nodup) (w : World σ)
    (d : List (Nat × Nat)) (hd : (l.foldl (handler_slot cbs) w).calls = w.calls ++ d)
    (hq : ∀ c a, (c, a) ∈ d → ∀ T u, (cbs c a T u).1 j = T j) :
    (l.foldl (handler_slot cbs) w).timers j
      = (if j ∈ l then tick (w.timers j) else w.timers j) ∧
    calls_of j.val d = (if j ∈ l then fired (w.timers j) j.val else []) := by
  induction l generalizing w d with
  | nil =>
    have hnil : d = [] := by
      have h : w.calls ++ [] = w.calls ++ d := by simpa using hd
      exact (List.append_cancel_left h).symm
    subst hnil
    simp [calls_of]
  | cons a l ih =>
    have hnd := List.nodup_cons.mp hl
    obtain ⟨hC, hcase⟩ := handler_slot_cases cbs w a
    obtain ⟨d', hd'⟩ := handler_fold_grows cbs l (handler_slot cbs w a)
    have hsplit : d = fired (w.timers a) a.val ++ d' := by
      rw [List.foldl_cons, hd', hC, List.append_assoc] at hd
      exact (List.append_cancel_left hd).symm
    have hslot : (handler_slot cbs w a).timers j
        = (Function.update w.timers a (tick (w.timers a))) j := by
      rcases hcase with ⟨_, hT⟩ | ⟨f, hf, hT⟩
      · rw [hT]
      · rw [hT]
        exact hq f a.val (by rw [hsplit, hf]; simp) _ _
    obtain ⟨ih1, ih2⟩ := ih hnd.2 (handler_slot cbs w a) d' hd'
      (fun c b hmem => hq c b (by rw [hsplit]; exact List.mem_append_right _ hmem))
    rw [List.foldl_cons, ih1, hsplit, calls_of_append, ih2, calls_of_fired, hslot]
    by_cases hja : j = a
    · subst hja
      simp [hnd.1]
    · have haj : ¬ a = j := fun h => hja h.symm
      simp [hja, haj, Function.update_noteq hja]

theorem pass_calls_spec {σ : Type} (cbs : Callbacks σ) (w : World σ) :
    (flexitimer_handler cbs w).calls = w.calls ++ pass_calls cbs w := by
  obtain ⟨d, hd⟩ := handler_fold_grows cbs (List.finRange FLEXITIMER_MAX_TIMERS) w
  have h : (flexitimer_handler cbs w).calls = w.calls ++ d := hd
  simp [pass_calls, h]

/-- One handler pass in which the callback `f` is invoked for slot `i`, its body leaves
slot `j` with the configuration `cfg`, and no other invocation made during the pass changes
slot `j`: slot `j` ends the pass as `cfg`, advanced by one `tick` exactly when it is scanned
after `i`; the invocations made for `j` are those of its previous configuration when it is
scanned before `i`, the call of `f` when `j = i`, and those of `cfg` when it is scanned
after `i`. -/
theorem rearm_pass_logged {σ : Type} (cbs : Callbacks σ) (w : World σ)
    (i j : Fin FLEXITIMER_MAX_TIMERS) (f : Nat) (cfg : timer_t)
    (h1 : (f, i.val) ∈ pass_calls cbs w)
    (h2 : ∀ T u, (cbs f i.val T u).1 j = cfg)
    (h3 : ∀ c a, (c, a) ∈ pass_calls cbs w → (c, a) ≠ (f, i.val) →
      ∀ T u, (cbs c a T u).1 j = T j) :
    (flexitimer_handler cbs w).timers j = (if i < j then tick cfg else cfg) ∧
    calls_of j.val (pass_calls cbs w)
      = (if j < i then fired (w.timers j) j.val
         else if j = i then [(f, i.val)]
         else fired cfg j.val) := by
  obtain ⟨l₁, l₂, hsplit, hn1, hn2, hm1, hm2⟩ := finRange_split i
  have hil1 : i ∉ l₁ := fun h => lt_irrefl i ((hm1 i).1 h)
  have hil2 : i ∉ l₂ := fun h => lt_irrefl i ((hm2 i).1 h)
  obtain ⟨dA, hdA⟩ := handler_fold_grows cbs l₁ w
  obtain ⟨hCi, hcase⟩ := handler_slot_cases cbs (l₁.foldl (handler_slot cbs) w) i
  obtain ⟨dB, hdB⟩ := handler_fold_grows cbs l₂
    (handler_slot cbs (l₁.foldl (handler_slot cbs) w) i)
  have hfold : flexitimer_handler cbs w
      = l₂.foldl (handler_slot cbs) (handler_slot cbs (l₁.foldl (handler_slot cbs) w) i) := by
    unfold flexitimer_handler
    rw [hsplit, List.foldl_append, List.foldl_cons]
  have hpc : pass_calls cbs w
      = dA ++ (fired ((l₁.foldl (handler_slot cbs) w).timers i) i.val ++ dB) := by
    have h := pass_calls_spec cbs w
    rw [hfold, hdB, hCi, hdA, List.append_assoc, List.append_assoc] at h
    exact (List.append_cancel_left h).symm
  have hnA : ∀ c, (c, i.val) ∉ dA := handler_fold_other_ids cbs l₁ hn1 w i hil1 dA hdA
  have hnB : ∀ c, (c, i.val) ∉ dB := handler_fold_other_ids cbs l₂ hn2 _ i hil2 dB hdB
  -- the invocation of `f` for slot `i` is the one made at slot `i`'s turn
  have hfi : fired ((l₁.foldl (handler_slot cbs) w).timers i) i.val = [(f, i.val)] ∧
      (handler_slot cbs (l₁.foldl (handler_slot cbs) w) i).timers j = cfg := by
    rw [hpc] at h1
    rcases List.mem_append.mp h1 with h | h
    · exact absurd h (hnA f)
    · rcases List.mem_append.mp h with h | h
      · rcases hcase with ⟨hnil, _⟩ | ⟨f', hf', hT⟩
        · rw [hnil] at h
          cases h
        · rw [hf'] at h
          have hff : f = f' := by
            simp only [List.mem_singleton, Prod.mk.injEq] at h
            exact h.1
          subst hff
          exact ⟨hf', by rw [hT]; exact h2 _ _⟩
      · exact absurd h (hnB f)
  -- the slots scanned before `i` and after `i`
  obtain ⟨_, hA2⟩ := handler_fold_logged cbs j l₁ hn1 w dA hdA (fun c a hmem =>
    h3 c a (by rw [hpc]; exact List.mem_append_left _ hmem)
      (fun heq => hnA f (by rw [Prod.mk.injEq] at heq; rw [← heq.1, ← heq.2]; exact hmem)))
  obtain ⟨hB1, hB2⟩ := handler_fold_logged cbs j l₂ hn2 _ dB hdB (fun c a hmem =>
    h3 c a (by rw [hpc]; exact List.mem_append_right _ (List.mem_append_right _ hmem))
      (fun heq => hnB f (by rw [Prod.mk.injEq] at heq; rw [← heq.1, ← heq.2]; exact hmem)))
  rw [hfold, hB1, hfi.2, hpc, calls_of_append, calls_of_append, hA2, hB2, hfi.1, hfi.2]
  simp only [hm1 j, hm2 j, true_and]
  rcases lt_trichotomy j i with hji | hji | hji
  · have h1' : ¬ i < j := not_lt.mpr (le_of_lt hji)
    have h2' : ¬ i.val = j.val := fun h => (ne_of_lt hji) (Fin.ext h.symm)
    simp [hji, h1', calls_of, h2']
  · subst hji
    simp [calls_of]
  · have h1' : ¬ j < i := not_lt.mpr (le_of_lt hji)
    have h2' : ¬ i.val = j.val := fun h => (ne_of_lt hji) (Fin.ext h)
    have h3' : ¬ j = i := fun h => (ne_of_lt hji) h.symm
    simp [hji, h1', calls_of, h2', h3']

/-- One handler pass, seen from a slot that no invocation made during the pass changes:
the slot is advanced by `tick` and the invocations made for it are exactly `fired`. -/
theorem handler_logged_view {σ : Type} (cbs : Callbacks σ) (j : Fin FLEXITIMER_MAX_TIMERS)
    (w : World σ)
    (hq : ∀ c a, (c, a) ∈ pass_calls cbs w → ∀ T u, (cbs c a T u).1 j = T j) :
    (flexitimer_handler cbs w).timers j = tick (w.timers j) ∧
    calls_of j.val (pass_calls cbs w) = fired (w.timers j) j.val := by
  have h := handler_fold_logged cbs j (List.finRange FLEXITIMER_MAX_TIMERS)
    (List.nodup_finRange _) w (pass_calls cbs w) (pass_calls_spec cbs w) hq
  simpa [flexitimer_handler] using h

/-- C17, as stated, fails on the code in two ways.  First (`j < i`): slot 0 holds an
expiring timer with callback `g` (address 2) and slot 1 an expiring timer whose callback
(address 1) calls `start(0, One-shot, 5, g)`; in the pass slot 0 fires `g` at its own turn
and is then re-armed, so `cb_j = g` is invoked with id 0 in that pass.  Second (`j > i`,
`t = 0`): the callback of slot 0 (address 1) calls `start(1, One-shot, 0, cb_j)` with
`cb_j` that same function; slot 1 fires in the same pass, its callback re-arms it, and it
ends the pass Active, not Passive. -/
theorem C17_cascading_fails_as_stated :
    (pass_calls (rearm_callbacks 1 0 .SINGLESHOT 5 2)
        (fresh_world (flexitimer_start
          (flexitimer_start (flexitimer_init zero_table) 0 .SINGLESHOT 1 (some 2)).2
          1 .SINGLESHOT 1 (some 1)).2) = [(2, 0), (1, 1)] ∧
      (flexitimer_handler (rearm_callbacks 1 0 .SINGLESHOT 5 2)
        (fresh_world (flexitimer_start
          (flexitimer_start (flexitimer_init zero_table) 0 .SINGLESHOT 1 (some 2)).2
          1 .SINGLESHOT 1 (some 1)).2)).timers 0 = ⟨5, 5, .SINGLESHOT, .ACTIVE, some 2⟩) ∧
    (pass_calls (rearm_callbacks 1 1 .SINGLESHOT 0 1)
        (fresh_world (flexitimer_start (flexitimer_init zero_table) 0 .SINGLESHOT 1
          (some 1)).2) = [(1, 0), (1, 1)] ∧
      (flexitimer_handler (rearm_callbacks 1 1 .SINGLESHOT 0 1)
        (fresh_world (flexitimer_start (flexitimer_init zero_table) 0 .SINGLESHOT 1
          (some 1)).2)).timers 1 = ⟨0, 0, .SINGLESHOT, .ACTIVE, some 1⟩) := by
  decide

/-- C17, amended: same-pass cascading.  Slot `i` expires during a handler pass and its
callback `f` is invoked for it; the body of `f`, invoked for slot `i`, leaves slot `j` as
`start(j, One-shot, t, g)` writes it; and no other invocation made during that pass (that
of `g` included) changes slot `j`.  If `j > i`, slot `j` is scanned later in the same pass
with the new configuration: for `t ≤ 1` the callback `g` is invoked within that pass (the
one invocation for id `j`) and slot `j` ends it Passive, for `t ≥ 2` slot `j` ends it Active
with `remaining = t - 1` and nothing is invoked for it.  If `j < i`, slot `j` is not scanned
again: it ends the pass exactly as `start` wrote it, Active with `remaining = t`, and the
only invocations made for id `j` in the pass are those its previous configuration produced
at its own turn, none if that configuration was not due to expire; the countdown begins
with the next pass, which, if no invocation made during it changes slot `j`, leaves
`remaining = t - 1` (for `t ≥ 2`). -/
theorem C17_same_pass_cascading {σ : Type} (cbs : Callbacks σ) (w : World σ)
    (i j : Fin FLEXITIMER_MAX_TIMERS) (f g t : Nat)
    (h1 : (f, i.val) ∈ pass_calls cbs w)
    (h2 : ∀ T u, (cbs f i.val T u).1 j
      = (flexitimer_start T j.val .SINGLESHOT t (some g)).2 j)
    (h3 : ∀ c a, (c, a) ∈ pass_calls cbs w → (c, a) ≠ (f, i.val) →
      ∀ T u, (cbs c a T u).1 j = T j) :
    (i < j →
      (t ≤ 1 →
        calls_of j.val (pass_calls cbs w) = [(g, j.val)] ∧
        (flexitimer_handler cbs w).timers j = ⟨t, 0, .SINGLESHOT, .PASSIVE, some g⟩) ∧
      (2 ≤ t →
        (flexitimer_handler cbs w).timers j = ⟨t, t - 1, .SINGLESHOT, .ACTIVE, some g⟩ ∧
        calls_of j.val (pass_calls cbs w) = [])) ∧
    (j < i →
      (flexitimer_handler cbs w).timers j = ⟨t, t, .SINGLESHOT, .ACTIVE, some g⟩ ∧
      calls_of j.val (pass_calls cbs w) = fired (w.timers j) j.val ∧
      (¬ ((w.timers j).state = .ACTIVE ∧ (w.timers j).remaining ≤ 1) →
        calls_of j.val (pass_calls cbs w) = []) ∧
      ((∀ c a, (c, a) ∈ pass_calls cbs (flexitimer_handler cbs w) →
          ∀ T u, (cbs c a T u).1 j = T j) → 2 ≤ t →
        (flexitimer_handler cbs (flexitimer_handler cbs w)).timers j
          = ⟨t, t - 1, .SINGLESHOT, .ACTIVE, some g⟩)) := by
  have h2' : ∀ T u, (cbs f i.val T u).1 j = ⟨t, t, .SINGLESHOT, .ACTIVE, some g⟩ := by
    intro T u
    rw [h2 T u, start_writes_slot T j .SINGLESHOT t (some g) (by simp),
      Function.update_same]
  obtain ⟨hT, hC⟩ := rearm_pass_logged cbs w i j f _ h1 h2' h3
  refine ⟨fun hij => ⟨fun ht => ?_, fun ht => ?_⟩, fun hji => ?_⟩
  · have h1' : ¬ j < i := not_lt.mpr (le_of_lt hij)
    have h2'' : ¬ j = i := fun h => (ne_of_lt hij) h.symm
    rw [hT, hC]
    simp [hij, h1', h2'', tick, fired, ht]
  · have h1' : ¬ j < i := not_lt.mpr (le_of_lt hij)
    have h2'' : ¬ j = i := fun h => (ne_of_lt hij) h.symm
    have h3' : ¬ t ≤ 1 := by omega
    rw [hT, hC]
    simp [hij, h1', h2'', tick, fired, h3']
  · have h1' : ¬ i < j := not_lt.mpr (le_of_lt hji)
    have hend : (flexitimer_handler cbs w).timers j
        = ⟨t, t, .SINGLESHOT, .ACTIVE, some g⟩ := by
      rw [hT]
      simp [h1']
    refine ⟨hend, by rw [hC]; simp [hji], fun hno => ?_, fun hnext ht => ?_⟩
    · rw [hC]
      simp [hji, fired, hno]
    · have h3' : ¬ t ≤ 1 := by omega
      rw [(handler_logged_view cbs j (flexitimer_handler cbs w) hnext).1, hend]
      simp [tick, h3']

/-- Witness for C17 (amended): the fifth handler pass of `basic_example.c`.  Timer 0
expires, `timer_callback_1` (address 1) starts timer 1 for 3 ticks with `timer_callback_2`
(address 2), the only other invocation of the pass is `timer_callback_4` for the periodic
timer 3, and timer 1, scanned in the same pass, ends it Active with 2 ticks left. -/
theorem C17_same_pass_cascading_witness :
    (1, 0) ∈ pass_calls basic_callbacks (handler_passes basic_callbacks 4 basic_example_world) ∧
    pass_calls basic_callbacks (handler_passes basic_callbacks 4 basic_example_world)
      = [(1, 0), (4, 3)] ∧
    (flexitimer_handler basic_callbacks
        (handler_passes basic_callbacks 4 basic_example_world)).timers 1
      = ⟨3, 2, .SINGLESHOT, .ACTIVE, some 2⟩ ∧
    calls_of 1 (pass_calls basic_callbacks
        (handler_passes basic_callbacks 4 basic_example_world)) = [] := by
  have hpc : pass_calls basic_callbacks (handler_passes basic_callbacks 4 basic_example_world)
      = [(1, 0), (4, 3)] := by decide
  have h := C17_same_pass_cascading basic_callbacks
    (handler_passes basic_callbacks 4 basic_example_world) 0 1 1 2 3 (by decide)
    (fun T u => by
      simp [basic_callbacks, script_callbacks, run_calls, api_call.run])
    (fun c a hmem hne T u => by
      rw [hpc] at hmem
      simp only [List.mem_cons, Prod.mk.injEq, List.mem_singleton, List.not_mem_nil,
        or_false] at hmem
      rcases hmem with ⟨hc, ha⟩ | ⟨hc, ha⟩
      · subst hc; subst ha
        exact absurd rfl hne
      · subst hc; subst ha
        simp [basic_callbacks, script_callbacks, run_calls])
  exact ⟨by decide, hpc, ((h.1 (by decide)).2 (by decide)).1,
    ((h.1 (by decide)).2 (by decide)).2⟩

/-- C18, as stated, fails on the code: slot 0 holds an expiring timer whose callback
(address 1) re-arms it with `start(0, One-shot, 5, g)`, and slot 1 holds an expiring timer
whose callback (address 3) calls `cancel(0)`.  Both fire in the same pass, slot 1 after
slot 0, and at the end of the pass slot 0 is Passive with `remaining = 0` and no callback,
not Active with `remaining = 5`. -/
theorem C18_rearmed_slot_cancelled_in_pass :
    (flexitimer_start
      (flexitimer_start (flexitimer_init zero_table) 0 .SINGLESHOT 1 (some 1)).2
      1 .SINGLESHOT 1 (some 3)).2 0 = ⟨1, 1, .SINGLESHOT, .ACTIVE, some 1⟩ ∧
    pass_calls interfering_callbacks
      (fresh_world (flexitimer_start
        (flexitimer_start (flexitimer_init zero_table) 0 .SINGLESHOT 1 (some 1)).2
        1 .SINGLESHOT 1 (some 3)).2) = [(1, 0), (3, 1)] ∧
    (flexitimer_handler interfering_callbacks
      (fresh_world (flexitimer_start
        (flexitimer_start (flexitimer_init zero_table) 0 .SINGLESHOT 1 (some 1)).2
        1 .SINGLESHOT 1 (some 3)).2)).timers 0 = ⟨5, 0, .SINGLESHOT, .PASSIVE, none⟩ := by
  decide

/-- C18, amended: a callback may re-arm its own slot.  Slot `i` (One-shot or Periodic)
expires during a handler pass and its callback `f` is invoked for it; the body of `f`,
invoked for slot `i`, leaves slot `i` as `start(i, kind, t, g)` with valid arguments writes
it; and no other invocation made during that pass changes slot `i`.  Then at the end of the
pass slot `i` is exactly as `start` wrote it: Active with `timeout = t`, `remaining = t`,
the new kind and the callback `g`; the only invocation made for id `i` in the pass is the
one call of `f`, so `g` (when it is another function) is not invoked for it in that pass;
the loop body does nothing to the table after the callback of an expired slot returns; and
the new countdown begins with the next pass, which, if no invocation made during it changes
slot `i`, leaves `remaining = t - 1` (for `t ≥ 2`). -/
theorem C18_callback_rearms_own_slot {σ : Type} (cbs : Callbacks σ) (w : World σ)
    (i : Fin FLEXITIMER_MAX_TIMERS) (f g : Nat) (kind : timer_type_t) (t : Nat)
    (hz : ¬ (kind = .PERIODIC ∧ t = 0))
    (h1 : (f, i.val) ∈ pass_calls cbs w)
    (h2 : ∀ T u, (cbs f i.val T u).1 i = (flexitimer_start T i.val kind t (some g)).2 i)
    (h3 : ∀ c a, (c, a) ∈ pass_calls cbs w → (c, a) ≠ (f, i.val) →
      ∀ T u, (cbs c a T u).1 i = T i) :
    (flexitimer_handler cbs w).timers i = ⟨t, t, kind, .ACTIVE, some g⟩ ∧
    calls_of i.val (pass_calls cbs w) = [(f, i.val)] ∧
    (g ≠ f → (g, i.val) ∉ pass_calls cbs w) ∧
    (∀ w' : World σ, (w'.timers i).state = .ACTIVE → (w'.timers i).remaining ≤ 1 →
      (w'.timers i).callback = some f →
      (handler_slot cbs w' i).timers
        = (cbs f i.val (Function.update w'.timers i (tick (w'.timers i))) w'.user).1) ∧
    ((∀ c a, (c, a) ∈ pass_calls cbs (flexitimer_handler cbs w) →
        ∀ T u, (cbs c a T u).1 i = T i) → 2 ≤ t →
      (flexitimer_handler cbs (flexitimer_handler cbs w)).timers i
        = ⟨t, t - 1, kind, .ACTIVE, some g⟩) := by
  have h2' : ∀ T u, (cbs f i.val T u).1 i = ⟨t, t, kind, .ACTIVE, some g⟩ := by
    intro T u
    rw [h2 T u, start_writes_slot T i kind t (some g) hz, Function.update_same]
  obtain ⟨hT, hC⟩ := rearm_pass_logged cbs w i i f _ h1 h2' h3
  have hC' : calls_of i.val (pass_calls cbs w) = [(f, i.val)] := by
    rw [hC]
    simp
  have hend : (flexitimer_handler cbs w).timers i = ⟨t, t, kind, .ACTIVE, some g⟩ := by
    rw [hT]
    simp
  refine ⟨hend, hC', fun hgf hmem => ?_,
    fun w' hs hr hc => (handler_slot_fire cbs w' i f hs hr hc).1, fun hnext ht => ?_⟩
  · have hin : (g, i.val) ∈ calls_of i.val (pass_calls cbs w) := by
      simp [calls_of, hmem]
    rw [hC'] at hin
    simp only [List.mem_singleton, Prod.mk.injEq] at hin
    exact hgf hin.1
  · have h3' : ¬ t ≤ 1 := by omega
    rw [(handler_logged_view cbs i (flexitimer_handler cbs w) hnext).1, hend]
    simp [tick, h3']

/-- Witness for C18 (amended): the first handler pass of `traffic_light.c`.  The immediate
timer 0 expires and its callback `green_light` (address 3) calls
`start(0, SINGLESHOT, 15, red_light)` (address 1); nothing else is invoked in the pass, and
timer 0 ends it Active with 15 ticks left and `red_light` registered. -/
theorem C18_callback_rearms_own_slot_witness :
    ¬ (timer_type_t.SINGLESHOT = .PERIODIC ∧ 15 = 0) ∧
    (3, 0) ∈ pass_calls traffic_callbacks traffic_light_world ∧
    pass_calls traffic_callbacks traffic_light_world = [(3, 0)] ∧
    (flexitimer_handler traffic_callbacks traffic_light_world).timers 0
      = ⟨15, 15, .SINGLESHOT, .ACTIVE, some 1⟩ ∧
    calls_of 0 (pass_calls traffic_callbacks traffic_light_world) = [(3, 0)] ∧
    (flexitimer_handler traffic_callbacks
        (flexitimer_handler traffic_callbacks traffic_light_world)).timers 0
      = ⟨15, 14, .SINGLESHOT, .ACTIVE, some 1⟩ := by
  have hpc : pass_calls traffic_callbacks traffic_light_world = [(3, 0)] := by decide
  have hpc2 : pass_calls traffic_callbacks
      (flexitimer_handler traffic_callbacks traffic_light_world) = [] := by decide
  have h := C18_callback_rearms_own_slot traffic_callbacks traffic_light_world 0 3 1
    .SINGLESHOT 15 (by decide) (by decide)
    (fun T u => by
      simp [traffic_callbacks, script_callbacks, run_calls, api_call.run])
    (fun c a hmem hne T u => by
      rw [hpc] at hmem
      simp only [List.mem_singleton, Prod.mk.injEq] at hmem
      obtain ⟨hc, ha⟩ := hmem
      subst hc; subst ha
      exact absurd rfl hne)
  exact ⟨by decide, by decide, hpc, h.1, h.2.1,
    h.2.2.2.2 (fun c a hmem => by rw [hpc2] at hmem; cases hmem) (by decide)⟩

end FlexiTimer
